import Mathlib

/-! snet-daemon: income validation and component wiring

A shallow embedding of `escrow/income.go` and `snetd/cmd/components.go`.

* `escrow`: the baseline income validator.  `*big.Int` values are `Option Int`
  (`none` is the nil pointer), a run-time panic is an `Except.error`.
* `cmd`: the lazily initialised component container.  Its methods are state
  transformers over the receiver, a log of the calls made to other packages
  and an allocation counter that gives every constructed object its identity.
-/

namespace snet

namespace escrow

/-- Status codes of `google.golang.org/grpc/codes`, in numeric order. -/
inductive Code where
  | OK | Canceled | Unknown | InvalidArgument | DeadlineExceeded | NotFound
  | AlreadyExists | PermissionDenied | ResourceExhausted | FailedPrecondition
  | Aborted | OutOfRange | Unimplemented | Internal | Unavailable | DataLoss
  | Unauthenticated
  deriving DecidableEq, Repr

/-- Run-time panics of the Go runtime that the embedded code can raise. -/
inductive RuntimePanic where
  | nilPointerDereference
  deriving DecidableEq, Repr

/-- The gRPC status carried by `handler.GrpcError`: a code and a message. -/
structure GrpcError where
  code : Code
  message : String
  deriving DecidableEq, Repr

/-- The verb `%d` of package `fmt` applied to a `*big.Int`: the decimal digits,
with a leading minus sign for a negative value. -/
def formatDecimal (x : Int) : List Char :=
  (toString x).toList

/-- The fragment of `fmt.Sprintf` the validator uses: every `%d` consumes the
next operand and renders it in decimal, every other character is copied. -/
def sprintfChars : List Char → List Int → List Char
  | [], _ => []
  | '%' :: 'd' :: rest, a :: args => formatDecimal a ++ sprintfChars rest args
  | c :: rest, args => c :: sprintfChars rest args

/-- The function `fmt.Sprintf` on strings, through `sprintfChars`. -/
def Sprintf (format : String) (args : List Int) : String :=
  String.mk (sprintfChars format.toList args)

/-- Modelled from the spec: `handler.NewGrpcErrorf` is not under src/.  A
rejection is a protocol-level status carrying the reason, so the helper builds
the status from the code it is given and the message formatted from the format
string and its operands. -/
def NewGrpcErrorf (code : Code) (format : String) (args : List Int) : GrpcError :=
  { code := code, message := Sprintf format args }

/-- The struct `IncomeData`, restricted to the field the baseline validator reads.  The
field `GrpcContext` is never read by `Validate` and is kept as an identifier of
the stream context (`none` is nil). -/
structure IncomeData where
  Income : Option Int
  GrpcContext : Option Nat
  deriving DecidableEq, Repr

/-- The struct `incomeValidator`. -/
structure incomeValidator where
  priceInCogs : Option Int
  deriving DecidableEq, Repr

/-- The function `NewIncomeValidator` stores the price in a new validator. -/
def NewIncomeValidator (priceInCogs : Option Int) : incomeValidator :=
  { priceInCogs := priceInCogs }

/-- The method `(*big.Int).Cmp`: -1 if x < y, 0 if x = y, +1 if x > y. -/
def Cmp (x y : Int) : Int :=
  if x < y then -1 else if x = y then 0 else 1

/-- The method `incomeValidator.Validate`.  `Except.ok none` is the nil error (approval),
`Except.ok (some e)` a rejection with status `e`.  On pointers `Cmp` first tests
`x == y` and returns 0 without reading either operand, so two nil pointers
compare equal; with exactly one of them nil it dereferences nil. -/
def Validate (validator : incomeValidator) (data : IncomeData) :
    Except RuntimePanic (Option GrpcError) :=
  let price := validator.priceInCogs
  match data.Income, price with
  | some income, some p =>
    if Cmp income p ≠ 0 then
      .ok (some (NewGrpcErrorf Code.Unauthenticated
        "income %d does not equal to price %d" [income, p]))
    else
      .ok none
  | none, none => .ok none
  | _, _ => .error RuntimePanic.nilPointerDereference

/-- Modelled from the spec: the payment channel service that computes the income
is not under src/.  "Compute `income = claimedAmount - record.authorizedAmount`";
`IncomeData.Income` documents the same difference. -/
def computeIncome (claimedAmount authorizedAmount : Int) : Int :=
  claimedAmount - authorizedAmount

/-- The income data handed to the validator for a claim on a channel. -/
def incomeOfClaim (claimedAmount authorizedAmount : Int) : IncomeData :=
  { Income := some (computeIncome claimedAmount authorizedAmount), GrpcContext := none }

end escrow


/-! ## Objects of the other packages

Constructors of the other packages are uninterpreted: an object is the address
it was allocated at together with the arguments it was built from.  A
constructor that returns without an error returns a non-nil object. -/

namespace blockchain

/-- The type `*blockchain.ServiceMetadata`. -/
structure ServiceMetadata where
  addr : Nat
  deriving DecidableEq, Repr

/-- The type `*blockchain.OrganizationMetaData`. -/
structure OrganizationMetaData where
  addr : Nat
  deriving DecidableEq, Repr

/-- The type `*blockchain.Processor`; `enabled` is what `Enabled()` reports. -/
structure Processor where
  addr : Nat
  enabled : Bool
  deriving DecidableEq, Repr

end blockchain

namespace etcddb

/-- The type `*etcddb.EtcdClient`. -/
structure EtcdClient where
  addr : Nat
  deriving DecidableEq, Repr

/-- The type `*etcddb.EtcdServer`. -/
structure EtcdServer where
  addr : Nat
  deriving DecidableEq, Repr

end etcddb

namespace escrow

/-- The interface `escrow.AtomicStorage` with the two dynamic types
`components.go` stores in it: the etcd client and the in-memory storage. -/
inductive AtomicStorage where
  | etcdClient (client : etcddb.EtcdClient)
  | memStorage (addr : Nat)
  deriving DecidableEq, Repr

/-- The type `*escrow.PrefixedAtomicStorage` as built by `NewLockerStorage`. -/
structure PrefixedAtomicStorage where
  addr : Nat
  storage : escrow.AtomicStorage
  metadata : blockchain.ServiceMetadata
  deriving DecidableEq, Repr

/-- The type `*escrow.PaymentStorage` as built by `NewPaymentStorage`. -/
structure PaymentStorage where
  addr : Nat
  storage : escrow.AtomicStorage
  deriving DecidableEq, Repr

/-- The type `*escrow.PaymentChannelStorage` as built by `NewPaymentChannelStorage`. -/
structure PaymentChannelStorage where
  addr : Nat
  storage : escrow.AtomicStorage
  metadata : blockchain.ServiceMetadata
  deriving DecidableEq, Repr

/-- The result of `escrow.NewBlockchainChannelReader`. -/
structure BlockchainChannelReader where
  addr : Nat
  processor : blockchain.Processor
  organization : blockchain.OrganizationMetaData
  deriving DecidableEq, Repr

/-- The result of `escrow.NewEtcdLocker`. -/
structure EtcdLocker where
  addr : Nat
  storage : escrow.AtomicStorage
  metadata : blockchain.ServiceMetadata
  deriving DecidableEq, Repr

/-- The result of `escrow.NewChannelPaymentValidator`. -/
structure ChannelPaymentValidator where
  addr : Nat
  processor : blockchain.Processor
  organization : blockchain.OrganizationMetaData
  deriving DecidableEq, Repr

/-- The interface `escrow.PaymentChannelService` as built by
`NewPaymentChannelService`.  The last argument, the closure reading the group id
from `components.OrganizationMetaData()`, captures only the receiver and is not
recorded. -/
structure PaymentChannelService where
  addr : Nat
  storage : escrow.PaymentChannelStorage
  paymentStorage : escrow.PaymentStorage
  blockchainReader : escrow.BlockchainChannelReader
  locker : escrow.EtcdLocker
  validator : escrow.ChannelPaymentValidator
  deriving DecidableEq, Repr

end escrow

namespace pricing

/-- The type `*pricing.PricingStrategy`. -/
structure PricingStrategy where
  addr : Nat
  deriving DecidableEq, Repr

end pricing

namespace escrow

/-- The validator `escrow.NewIncomeValidator` returns for the argument
`components.go` passes, the pricing strategy (nil when its initialisation
failed: the error is dropped). -/
structure IncomeValidator where
  addr : Nat
  pricing : Option pricing.PricingStrategy
  deriving DecidableEq, Repr

end escrow

namespace handler

/-- The interface `handler.PaymentHandler` with the two handlers built here. -/
inductive PaymentHandler where
  | escrow (addr : Nat) (service : escrow.PaymentChannelService) (processor : blockchain.Processor)
      (incomeValidator : escrow.IncomeValidator)
  | freeCall (addr : Nat) (processor : blockchain.Processor) (organization : blockchain.OrganizationMetaData)
  deriving DecidableEq, Repr

end handler

namespace configuration_service

/-- The type `*configuration_service.MessageBroadcaster`. -/
structure MessageBroadcaster where
  addr : Nat
  deriving DecidableEq, Repr

/-- The type `*configuration_service.ConfigurationService`. -/
structure ConfigurationService where
  addr : Nat
  broadcaster : configuration_service.MessageBroadcaster
  deriving DecidableEq, Repr

end configuration_service

namespace metrics

/-- The type `*metrics.DaemonHeartbeat`. -/
structure DaemonHeartbeat where
  addr : Nat
  DaemonID : String
  deriving DecidableEq, Repr

end metrics

namespace escrow

/-- The type `*escrow.PaymentChannelStateService`. -/
structure PaymentChannelStateService where
  addr : Nat
  service : escrow.PaymentChannelService
  paymentStorage : escrow.PaymentStorage
  metadata : blockchain.ServiceMetadata
  deriving DecidableEq, Repr

/-- The interface `escrow.PaymentChannelStateServiceServer`. -/
inductive PaymentChannelStateServiceServer where
  | blockChainDisabled
  | service (s : escrow.PaymentChannelStateService)
  deriving DecidableEq, Repr

/-- The type `*escrow.ProviderControlService`. -/
structure ProviderControlService where
  addr : Nat
  service : escrow.PaymentChannelService
  metadata : blockchain.ServiceMetadata
  organization : blockchain.OrganizationMetaData
  deriving DecidableEq, Repr

/-- The interface `escrow.ProviderControlServiceServer`. -/
inductive ProviderControlServiceServer where
  | blockChainDisabled
  | service (s : escrow.ProviderControlService)
  deriving DecidableEq, Repr

end escrow

namespace grpc

/-- The type `grpc.StreamServerInterceptor`, by the expression that built it. -/
inductive StreamServerInterceptor where
  | GrpcMonitoringInterceptor
  | GrpcRateLimitInterceptor (broadcaster : configuration_service.MessageBroadcaster)
  | NoOpInterceptor
  | GrpcPaymentValidationInterceptor (escrowHandler freeCallHandler : handler.PaymentHandler)
  | ChainStreamServer (interceptors : List grpc.StreamServerInterceptor)

end grpc

namespace cmd

/-- The struct `Components`; `none` is a nil field. -/
structure Components where
  serviceMetadata : Option snet.blockchain.ServiceMetadata := none
  blockchain : Option snet.blockchain.Processor := none
  etcdClient : Option snet.etcddb.EtcdClient := none
  etcdServer : Option snet.etcddb.EtcdServer := none
  atomicStorage : Option snet.escrow.AtomicStorage := none
  paymentChannelService : Option snet.escrow.PaymentChannelService := none
  escrowPaymentHandler : Option snet.handler.PaymentHandler := none
  grpcInterceptor : Option snet.grpc.StreamServerInterceptor := none
  paymentChannelStateService : Option snet.escrow.PaymentChannelStateService := none
  etcdLockerStorage : Option snet.escrow.PrefixedAtomicStorage := none
  providerControlService : Option snet.escrow.ProviderControlService := none
  daemonHeartbeat : Option snet.metrics.DaemonHeartbeat := none
  paymentStorage : Option snet.escrow.PaymentStorage := none
  priceStrategy : Option snet.pricing.PricingStrategy := none
  configurationService : Option snet.configuration_service.ConfigurationService := none
  configurationBroadcaster : Option snet.configuration_service.MessageBroadcaster := none
  organizationMetaData : Option snet.blockchain.OrganizationMetaData := none
  freeCallPaymentHandler : Option snet.handler.PaymentHandler := none

/-! ## The environment, the call log and the state -/

/-- The type `*pflag.Flag`, with the two fields read here. -/
structure Flag where
  Value : String
  Changed : Bool
  deriving DecidableEq, Repr

/-- The error `os.Stat` returns. -/
inductive StatError where
  | notExist
  | other
  deriving DecidableEq, Repr

/-- What the code reads from outside the receiver during one call: the
configuration, and the outcome of every call that can fail (`none` is the nil
error). -/
structure Env where
  /-- the value of `config.GetString(config.PaymentChannelStorageTypeKey)` -/
  storageType : String
  /-- the value of `config.GetBool(config.BlockchainEnabledKey)` -/
  blockchainEnabledKey : Bool
  /-- the outcome of `blockchain.NewProcessor`: the `Enabled()` flag of the processor, or the error -/
  newProcessor : Except String Bool
  /-- the outcome of `etcddb.IsEtcdServerEnabled` -/
  isEtcdServerEnabled : Except String Bool
  /-- the error of `etcddb.GetEtcdServer` -/
  getEtcdServer : Option String
  /-- the error of `server.Start` -/
  serverStart : Option String
  /-- the error of `etcddb.NewEtcdClient` -/
  newEtcdClient : Option String
  /-- whether `pricing.InitPricingStrategy` returns a non-nil strategy -/
  initPricingStrategy : Bool
  /-- the value of `metrics.GetDaemonID()` -/
  daemonID : String
  /-- the flag `cmd.Flags().Lookup("config")` returns, nil when there is none -/
  configFlag : Option Flag
  /-- the error of `os.Stat(fileName)` -/
  stat : String → Option StatError
  /-- the error of `config.LoadConfig(configFile)` -/
  loadConfig : String → Option String

/-- The constructors of the other packages that allocate an object. -/
inductive Constructor where
  | ServiceMetaData | GetOrganizationMetaData | NewProcessor | GetEtcdServer
  | NewEtcdClient | NewLockerStorage | NewMemStorage | NewPaymentStorage
  | NewPaymentChannelStorage | NewBlockchainChannelReader | NewEtcdLocker
  | NewChannelPaymentValidator | NewPaymentChannelService | NewPaymentHandler
  | NewIncomeValidator | FreeCallPaymentHandler | InitPricingStrategy
  | NewChannelBroadcaster | NewConfigurationService | NewPaymentChannelStateService
  | NewProviderControlService | DaemonHeartbeat
  deriving DecidableEq, Repr

/-- One entry of the call log. -/
inductive Event where
  /-- a constructor returned the object allocated at `addr` -/
  | constructed (fn : Constructor) (addr : Nat)
  /-- a constructor returned an error or nil -/
  | failed (fn : Constructor)
  | etcdServerStart (server : etcddb.EtcdServer)
  | setDaemonGrpId (organization : blockchain.OrganizationMetaData)
  | loadConfig (file : String)
  | logInfo (msg : String)
  | logPanic (msg : String)
  | etcdClientClose (client : etcddb.EtcdClient)
  | etcdServerClose (server : etcddb.EtcdServer)
  | processorClose (processor : blockchain.Processor)
  deriving DecidableEq, Repr

/-- The value a panic carries. -/
inductive PanicValue where
  /-- the entry logrus panics with after logging at the Panic level -/
  | logEntry (err : String) (msg : String)
  | nilPointerDereference
  /-- the argument of `panic` when it is a string -/
  | str (msg : String)
  deriving DecidableEq, Repr

/-- The state a method runs in: the receiver, the allocation counter, the log of
calls to other packages (oldest first) and a ghost counter of the calls of
`Components.Close`. -/
structure St where
  comps : Components
  next : Nat
  trace : List Event
  closeCalls : Nat

/-- How a call ends: it returns a value or it panics, in both cases leaving a
state behind. -/
inductive Res (α : Type) where
  | ok (a : α) (s : St)
  | panic (v : PanicValue) (s : St)

/-- The state left behind. -/
def Res.state {α : Type} : Res α → St
  | .ok _ s => s
  | .panic _ s => s

/-- Computations over the state that can panic. -/
def M (α : Type) : Type := St → Res α

/-- Return without touching the state. -/
def M.pure {α : Type} (a : α) : M α := fun s => .ok a s

/-- Sequencing; a panic skips the rest. -/
def M.bind {α β : Type} (m : M α) (f : α → M β) : M β := fun s =>
  match m s with
  | .ok a s1 => f a s1
  | .panic v s1 => .panic v s1

instance : Monad M where
  pure := M.pure
  bind := M.bind

/-- Raise a panic. -/
def throwPanic {α : Type} (v : PanicValue) : M α := fun s => .panic v s

/-- Read the receiver. -/
def getComps : M Components := fun s => .ok s.comps s

/-- Assign to fields of the receiver. -/
def setComps (f : Components → Components) : M Unit := fun s =>
  .ok () { s with comps := f s.comps }

/-- Append an entry to the call log. -/
def emit (e : Event) : M Unit := fun s =>
  .ok () { s with trace := s.trace ++ [e] }

/-- A constructor of another package allocates its result. -/
def construct (fn : Constructor) : M Nat := fun s =>
  .ok s.next { s with next := s.next + 1, trace := s.trace ++ [Event.constructed fn s.next] }

/-- The call `log.WithError(err)...Panic(msg)` of logrus: log, then panic with the entry. -/
def logPanic {α : Type} (err : String) (msg : String) : M α := do
  emit (Event.logPanic msg)
  throwPanic (PanicValue.logEntry err msg)

/-! ## The methods of `Components` -/

/-- The function `isFileExist`: true unless `os.Stat` reports that the file does not exist. -/
def isFileExist (env : Env) (fileName : String) : Bool :=
  match env.stat fileName with
  | some StatError.notExist => false
  | _ => true

/-- The function `loadConfigFileFromCommandLine`. -/
def loadConfigFileFromCommandLine (env : Env) (configFlag : Option Flag) : M Unit := do
  match configFlag with
  | none => throwPanic PanicValue.nilPointerDereference
  | some flag =>
    let configFile := flag.Value
    if flag.Changed || isFileExist env configFile then
      emit (Event.loadConfig configFile)
      match env.loadConfig configFile with
      | some err => logPanic err "Error reading configuration file"
      | none => emit (Event.logInfo "Using configuration file")
    else
      emit (Event.logInfo "Configuration file is not set, using default configuration")

/-- Ghost step: count one more call of `Components.Close`. -/
def tickClose : M Unit := fun s =>
  .ok () { s with closeCalls := s.closeCalls + 1 }

/-- The method `Components.Close`. -/
def Close : M Unit := do
  tickClose
  match (← getComps).etcdClient with
  | some client => emit (Event.etcdClientClose client)
  | none => pure ()
  match (← getComps).etcdServer with
  | some server => emit (Event.etcdServerClose server)
  | none => pure ()
  match (← getComps).blockchain with
  | some processor => emit (Event.processorClose processor)
  | none => pure ()

/-- The statement `components = &Components{}`: the receiver is a new struct
with every field nil. -/
def newComponents (s : St) : St :=
  { s with comps := {} }

/-- The function `InitComponents`.  The result is the pointer it returns, `some c`
for a pointer to a `Components` holding `c`.  The deferred function runs when
`loadConfigFileFromCommandLine` panics: `recover()` returns the value, which is
dropped. -/
def InitComponents (env : Env) : M (Option Components) := fun s =>
  match loadConfigFileFromCommandLine env env.configFlag (newComponents s) with
  | .ok _ s1 => .ok (some s1.comps) s1
  | .panic _ s1 =>
    (do Close
        throwPanic (PanicValue.str "re-panic after components cleanup")) s1

/-- The method `Components.ServiceMetaData`. -/
def ServiceMetaData : M blockchain.ServiceMetadata := do
  match (← getComps).serviceMetadata with
  | some m => return m
  | none =>
    let a ← construct Constructor.ServiceMetaData
    setComps (fun c => { c with serviceMetadata := some ⟨a⟩ })
    return ⟨a⟩

/-- The method `Components.Blockchain`. -/
def Blockchain (env : Env) : M blockchain.Processor := do
  match (← getComps).blockchain with
  | some p => return p
  | none =>
    let _ ← ServiceMetaData
    match env.newProcessor with
    | .error err =>
      emit (Event.failed Constructor.NewProcessor)
      logPanic err "unable to initialize blockchain processor"
    | .ok enabled =>
      let a ← construct Constructor.NewProcessor
      setComps (fun c => { c with blockchain := some ⟨a, enabled⟩ })
      return ⟨a, enabled⟩

/-- The method `Components.OrganizationMetaData`. -/
def OrganizationMetaData : M blockchain.OrganizationMetaData := do
  match (← getComps).organizationMetaData with
  | some m => return m
  | none =>
    let a ← construct Constructor.GetOrganizationMetaData
    setComps (fun c => { c with organizationMetaData := some ⟨a⟩ })
    return ⟨a⟩

/-- The method `Components.EtcdServer`; `none` is the nil it returns when the
server is not enabled. -/
def EtcdServer (env : Env) : M (Option etcddb.EtcdServer) := do
  match (← getComps).etcdServer with
  | some srv => return some srv
  | none =>
    match env.isEtcdServerEnabled with
    | .error err => logPanic err "error during etcd config parsing"
    | .ok false => return none
    | .ok true =>
      match env.getEtcdServer with
      | some err =>
        emit (Event.failed Constructor.GetEtcdServer)
        logPanic err "error during etcd config parsing"
      | none =>
        let a ← construct Constructor.GetEtcdServer
        emit (Event.etcdServerStart ⟨a⟩)
        match env.serverStart with
        | some err => logPanic err "error during etcd server starting"
        | none =>
          setComps (fun c => { c with etcdServer := some ⟨a⟩ })
          return some ⟨a⟩

/-- The method `Components.EtcdClient`. -/
def EtcdClient (env : Env) : M etcddb.EtcdClient := do
  match (← getComps).etcdClient with
  | some client => return client
  | none =>
    let _ ← OrganizationMetaData
    match env.newEtcdClient with
    | some err =>
      emit (Event.failed Constructor.NewEtcdClient)
      logPanic err "unable to create etcd client"
    | none =>
      let a ← construct Constructor.NewEtcdClient
      setComps (fun c => { c with etcdClient := some ⟨a⟩ })
      return ⟨a⟩

/-- The method `Components.AtomicStorage`. -/
def AtomicStorage (env : Env) : M escrow.AtomicStorage := do
  match (← getComps).atomicStorage with
  | some st => return st
  | none =>
    if env.storageType = "etcd" then
      let client ← EtcdClient env
      setComps (fun c => { c with atomicStorage := some (escrow.AtomicStorage.etcdClient client) })
      return escrow.AtomicStorage.etcdClient client
    else
      let a ← construct Constructor.NewMemStorage
      setComps (fun c => { c with atomicStorage := some (escrow.AtomicStorage.memStorage a) })
      return escrow.AtomicStorage.memStorage a

/-- The method `Components.LockerStorage`. -/
def LockerStorage (env : Env) : M escrow.PrefixedAtomicStorage := do
  match (← getComps).etcdLockerStorage with
  | some l => return l
  | none =>
    let st ← AtomicStorage env
    let m ← ServiceMetaData
    let a ← construct Constructor.NewLockerStorage
    setComps (fun c => { c with etcdLockerStorage := some ⟨a, st, m⟩ })
    return ⟨a, st, m⟩

/-- The method `Components.PaymentStorage`. -/
def PaymentStorage (env : Env) : M escrow.PaymentStorage := do
  match (← getComps).paymentStorage with
  | some ps => return ps
  | none =>
    let st ← AtomicStorage env
    let a ← construct Constructor.NewPaymentStorage
    setComps (fun c => { c with paymentStorage := some ⟨a, st⟩ })
    return ⟨a, st⟩

/-- The method `Components.PaymentChannelService`.  The arguments are evaluated
from left to right, the calls nested in an argument first. -/
def PaymentChannelService (env : Env) : M escrow.PaymentChannelService := do
  match (← getComps).paymentChannelService with
  | some svc => return svc
  | none =>
    let st1 ← AtomicStorage env
    let m1 ← ServiceMetaData
    let a1 ← construct Constructor.NewPaymentChannelStorage
    let ps ← PaymentStorage env
    let p1 ← Blockchain env
    let o1 ← OrganizationMetaData
    let a2 ← construct Constructor.NewBlockchainChannelReader
    let st2 ← AtomicStorage env
    let m2 ← ServiceMetaData
    let a3 ← construct Constructor.NewEtcdLocker
    let p2 ← Blockchain env
    let o2 ← OrganizationMetaData
    let a4 ← construct Constructor.NewChannelPaymentValidator
    let a ← construct Constructor.NewPaymentChannelService
    let svc : escrow.PaymentChannelService :=
      { addr := a, storage := ⟨a1, st1, m1⟩, paymentStorage := ps,
        blockchainReader := ⟨a2, p1, o1⟩, locker := ⟨a3, st2, m2⟩,
        validator := ⟨a4, p2, o2⟩ }
    setComps (fun c => { c with paymentChannelService := some svc })
    return svc

/-- The method `Components.PricingStrategy`; the error of
`pricing.InitPricingStrategy` is dropped, so the result can be nil. -/
def PricingStrategy (env : Env) : M (Option pricing.PricingStrategy) := do
  match (← getComps).priceStrategy with
  | some ps => return some ps
  | none =>
    let _ ← ServiceMetaData
    if env.initPricingStrategy then
      let a ← construct Constructor.InitPricingStrategy
      setComps (fun c => { c with priceStrategy := some ⟨a⟩ })
      return some ⟨a⟩
    else
      emit (Event.failed Constructor.InitPricingStrategy)
      return none

/-- The method `Components.EscrowPaymentHandler`. -/
def EscrowPaymentHandler (env : Env) : M handler.PaymentHandler := do
  match (← getComps).escrowPaymentHandler with
  | some h => return h
  | none =>
    let svc ← PaymentChannelService env
    let p ← Blockchain env
    let pricing ← PricingStrategy env
    let a1 ← construct Constructor.NewIncomeValidator
    let a ← construct Constructor.NewPaymentHandler
    let h := handler.PaymentHandler.escrow a svc p ⟨a1, pricing⟩
    setComps (fun c => { c with escrowPaymentHandler := some h })
    return h

/-- The method `Components.FreeCallPaymentHandler`. -/
def FreeCallPaymentHandler (env : Env) : M handler.PaymentHandler := do
  match (← getComps).freeCallPaymentHandler with
  | some h => return h
  | none =>
    let p ← Blockchain env
    let o ← OrganizationMetaData
    let a ← construct Constructor.FreeCallPaymentHandler
    let h := handler.PaymentHandler.freeCall a p o
    setComps (fun c => { c with freeCallPaymentHandler := some h })
    return h

/-- The method `Components.ChannelBroadcast`. -/
def ChannelBroadcast : M configuration_service.MessageBroadcaster := do
  match (← getComps).configurationBroadcaster with
  | some b => return b
  | none =>
    let a ← construct Constructor.NewChannelBroadcaster
    setComps (fun c => { c with configurationBroadcaster := some ⟨a⟩ })
    return ⟨a⟩

/-- The method `Components.ConfigurationService`. -/
def ConfigurationService : M configuration_service.ConfigurationService := do
  match (← getComps).configurationService with
  | some cs => return cs
  | none =>
    let b ← ChannelBroadcast
    let a ← construct Constructor.NewConfigurationService
    setComps (fun c => { c with configurationService := some ⟨a, b⟩ })
    return ⟨a, b⟩

/-- The method `Components.GrpcPaymentValidationInterceptor`. -/
def GrpcPaymentValidationInterceptor (env : Env) : M grpc.StreamServerInterceptor := do
  let p ← Blockchain env
  if !p.enabled then
    emit (Event.logInfo "Blockchain is disabled: no payment validation")
    return grpc.StreamServerInterceptor.NoOpInterceptor
  else
    emit (Event.logInfo "Blockchain is enabled: instantiate payment validation interceptor")
    let h1 ← EscrowPaymentHandler env
    let h2 ← FreeCallPaymentHandler env
    return grpc.StreamServerInterceptor.GrpcPaymentValidationInterceptor h1 h2

/-- The method `Components.GrpcInterceptor`: the chain of interceptors. -/
def GrpcInterceptor (env : Env) : M grpc.StreamServerInterceptor := do
  match (← getComps).grpcInterceptor with
  | some i => return i
  | none =>
    let o ← OrganizationMetaData
    emit (Event.setDaemonGrpId o)
    let p ← Blockchain env
    if p.enabled then
      let b ← ChannelBroadcast
      let pv ← GrpcPaymentValidationInterceptor env
      let chain := grpc.StreamServerInterceptor.ChainStreamServer
        [grpc.StreamServerInterceptor.GrpcMonitoringInterceptor,
         grpc.StreamServerInterceptor.GrpcRateLimitInterceptor b, pv]
      setComps (fun c => { c with grpcInterceptor := some chain })
      return chain
    else
      let b ← ChannelBroadcast
      let pv ← GrpcPaymentValidationInterceptor env
      let chain := grpc.StreamServerInterceptor.ChainStreamServer
        [grpc.StreamServerInterceptor.GrpcRateLimitInterceptor b, pv]
      setComps (fun c => { c with grpcInterceptor := some chain })
      return chain

/-- The method `Components.PaymentChannelStateService`. -/
def PaymentChannelStateService (env : Env) : M escrow.PaymentChannelStateServiceServer := do
  if !env.blockchainEnabledKey then
    return escrow.PaymentChannelStateServiceServer.blockChainDisabled
  else
    match (← getComps).paymentChannelStateService with
    | some svc => return escrow.PaymentChannelStateServiceServer.service svc
    | none =>
      let pcs ← PaymentChannelService env
      let ps ← PaymentStorage env
      let m ← ServiceMetaData
      let a ← construct Constructor.NewPaymentChannelStateService
      setComps (fun c => { c with paymentChannelStateService := some ⟨a, pcs, ps, m⟩ })
      return escrow.PaymentChannelStateServiceServer.service ⟨a, pcs, ps, m⟩

/-- The method `Components.ProviderControlService`. -/
def ProviderControlService (env : Env) : M escrow.ProviderControlServiceServer := do
  if !env.blockchainEnabledKey then
    return escrow.ProviderControlServiceServer.blockChainDisabled
  else
    match (← getComps).providerControlService with
    | some svc => return escrow.ProviderControlServiceServer.service svc
    | none =>
      let pcs ← PaymentChannelService env
      let m ← ServiceMetaData
      let o ← OrganizationMetaData
      let a ← construct Constructor.NewProviderControlService
      setComps (fun c => { c with providerControlService := some ⟨a, pcs, m, o⟩ })
      return escrow.ProviderControlServiceServer.service ⟨a, pcs, m, o⟩

/-- The method `Components.DaemonHeartBeat`. -/
def DaemonHeartBeat (env : Env) : M metrics.DaemonHeartbeat := do
  match (← getComps).daemonHeartbeat with
  | some hb => return hb
  | none =>
    let o ← OrganizationMetaData
    emit (Event.setDaemonGrpId o)
    let a ← construct Constructor.DaemonHeartbeat
    setComps (fun c => { c with daemonHeartbeat := some ⟨a, env.daemonID⟩ })
    return ⟨a, env.daemonID⟩

/-! ## Footprints, invariants and reachable states -/

/-- The fields of `Components`. -/
inductive Field where
  | serviceMetadata | blockchain | etcdClient | etcdServer | atomicStorage
  | paymentChannelService | escrowPaymentHandler | grpcInterceptor
  | paymentChannelStateService | etcdLockerStorage | providerControlService
  | daemonHeartbeat | paymentStorage | priceStrategy | configurationService
  | configurationBroadcaster | organizationMetaData | freeCallPaymentHandler
  deriving DecidableEq, Repr

/-- The type of what a field points to. -/
def Field.type : Field → Type
  | .serviceMetadata => blockchain.ServiceMetadata
  | .blockchain => blockchain.Processor
  | .etcdClient => etcddb.EtcdClient
  | .etcdServer => etcddb.EtcdServer
  | .atomicStorage => escrow.AtomicStorage
  | .paymentChannelService => escrow.PaymentChannelService
  | .escrowPaymentHandler => handler.PaymentHandler
  | .grpcInterceptor => grpc.StreamServerInterceptor
  | .paymentChannelStateService => escrow.PaymentChannelStateService
  | .etcdLockerStorage => escrow.PrefixedAtomicStorage
  | .providerControlService => escrow.ProviderControlService
  | .daemonHeartbeat => metrics.DaemonHeartbeat
  | .paymentStorage => escrow.PaymentStorage
  | .priceStrategy => pricing.PricingStrategy
  | .configurationService => configuration_service.ConfigurationService
  | .configurationBroadcaster => configuration_service.MessageBroadcaster
  | .organizationMetaData => blockchain.OrganizationMetaData
  | .freeCallPaymentHandler => handler.PaymentHandler

/-- Reading a field by its name. -/
def Components.get (c : Components) : (f : Field) → Option f.type
  | .serviceMetadata => c.serviceMetadata
  | .blockchain => c.blockchain
  | .etcdClient => c.etcdClient
  | .etcdServer => c.etcdServer
  | .atomicStorage => c.atomicStorage
  | .paymentChannelService => c.paymentChannelService
  | .escrowPaymentHandler => c.escrowPaymentHandler
  | .grpcInterceptor => c.grpcInterceptor
  | .paymentChannelStateService => c.paymentChannelStateService
  | .etcdLockerStorage => c.etcdLockerStorage
  | .providerControlService => c.providerControlService
  | .daemonHeartbeat => c.daemonHeartbeat
  | .paymentStorage => c.paymentStorage
  | .priceStrategy => c.priceStrategy
  | .configurationService => c.configurationService
  | .configurationBroadcaster => c.configurationBroadcaster
  | .organizationMetaData => c.organizationMetaData
  | .freeCallPaymentHandler => c.freeCallPaymentHandler

/-- The receiver `c2` differs from `c1` at most by fields of `W` that were nil in
`c1`: every other field, and every field already set, is the same. -/
def Mod (W : List Field) (c1 c2 : Components) : Prop :=
  ∀ f : Field, c2.get f = c1.get f ∨ (f ∈ W ∧ c1.get f = none)

/-- The computation `m` has footprint `W`, whether it returns or panics. -/
def Fp {α : Type} (W : List Field) (m : M α) : Prop :=
  ∀ s, Mod W s.comps (m s).state.comps

/-- The computation `m` keeps the property `P` of the receiver, whether it
returns or panics. -/
def Inv {α : Type} (P : Components → Prop) (m : M α) : Prop :=
  ∀ s, P s.comps → P (m s).state.comps

/-- The computation `m` keeps `P`, and what it returns satisfies `φ`. -/
def Tri {α : Type} (P : Components → Prop) (m : M α) (φ : α → Prop) : Prop :=
  ∀ s, P s.comps →
    match m s with
    | .ok a s1 => P s1.comps ∧ φ a
    | .panic _ s1 => P s1.comps

/-- Whenever `m` returns, the result and the receiver it leaves satisfy `Q`. -/
def Ret {α : Type} (m : M α) (Q : α → Components → Prop) : Prop :=
  ∀ s a s1, m s = .ok a s1 → Q a s1.comps

/-- The storage invariant: the payment storage and the payment channel service
held by the receiver were built over the atomic storage it holds. -/
def SharedStorage (c : Components) : Prop :=
  (∀ ps, c.paymentStorage = some ps → c.atomicStorage = some ps.storage) ∧
  (∀ svc, c.paymentChannelService = some svc →
    c.atomicStorage = some svc.storage.storage ∧
    svc.paymentStorage.storage = svc.storage.storage ∧
    svc.locker.storage = svc.storage.storage)

/-- What `components.Blockchain().Enabled()` reports: the flag of the processor
in the field, else of the one `NewProcessor` creates; `none` when that fails. -/
def blockchainEnabled (env : Env) (c : Components) : Option Bool :=
  match c.blockchain with
  | some p => some p.enabled
  | none =>
    match env.newProcessor with
    | .ok enabled => some enabled
    | .error _ => none

/-- The chain `GrpcInterceptor` builds around a processor whose `Enabled()` flag
is `enabled`: monitoring, rate limit and payment validation when it is true, rate
limit and the no-op interceptor when it is false. -/
def ChainFor (enabled : Bool) (r : grpc.StreamServerInterceptor) : Prop :=
  match enabled with
  | true => ∃ b h1 h2, r = grpc.StreamServerInterceptor.ChainStreamServer
      [grpc.StreamServerInterceptor.GrpcMonitoringInterceptor,
       grpc.StreamServerInterceptor.GrpcRateLimitInterceptor b,
       grpc.StreamServerInterceptor.GrpcPaymentValidationInterceptor h1 h2]
  | false => ∃ b, r = grpc.StreamServerInterceptor.ChainStreamServer
      [grpc.StreamServerInterceptor.GrpcRateLimitInterceptor b,
       grpc.StreamServerInterceptor.NoOpInterceptor]

/-- The chain invariant: a chain held by the receiver was built for the
processor it holds. -/
def ChainMatchesProcessor (c : Components) : Prop :=
  ∀ r, c.grpcInterceptor = some r → ∃ p, c.blockchain = some p ∧ ChainFor p.enabled r

/-- The receiver holds the processor `p`, and a chain only if built for `p`. -/
def HoldsProcessor (p : blockchain.Processor) (c : Components) : Prop :=
  c.blockchain = some p ∧ ∀ r, c.grpcInterceptor = some r → ChainFor p.enabled r

/-- The methods of `Components`. -/
inductive Method where
  | Close | Blockchain | ServiceMetaData | OrganizationMetaData | EtcdServer
  | EtcdClient | LockerStorage | AtomicStorage | PaymentStorage
  | PaymentChannelService | EscrowPaymentHandler | FreeCallPaymentHandler
  | GrpcInterceptor | GrpcPaymentValidationInterceptor | PaymentChannelStateService
  | ProviderControlService | DaemonHeartBeat | PricingStrategy | ChannelBroadcast
  | ConfigurationService
  deriving DecidableEq, Repr

/-- The state a call of a method leaves, whether it returns or panics. -/
def runMethod (env : Env) : Method → St → St
  | .Close, s => (Close s).state
  | .Blockchain, s => (Blockchain env s).state
  | .ServiceMetaData, s => (ServiceMetaData s).state
  | .OrganizationMetaData, s => (OrganizationMetaData s).state
  | .EtcdServer, s => (EtcdServer env s).state
  | .EtcdClient, s => (EtcdClient env s).state
  | .LockerStorage, s => (LockerStorage env s).state
  | .AtomicStorage, s => (AtomicStorage env s).state
  | .PaymentStorage, s => (PaymentStorage env s).state
  | .PaymentChannelService, s => (PaymentChannelService env s).state
  | .EscrowPaymentHandler, s => (EscrowPaymentHandler env s).state
  | .FreeCallPaymentHandler, s => (FreeCallPaymentHandler env s).state
  | .GrpcInterceptor, s => (GrpcInterceptor env s).state
  | .GrpcPaymentValidationInterceptor, s => (GrpcPaymentValidationInterceptor env s).state
  | .PaymentChannelStateService, s => (PaymentChannelStateService env s).state
  | .ProviderControlService, s => (ProviderControlService env s).state
  | .DaemonHeartBeat, s => (DaemonHeartBeat env s).state
  | .PricingStrategy, s => (PricingStrategy env s).state
  | .ChannelBroadcast, s => (ChannelBroadcast s).state
  | .ConfigurationService, s => (ConfigurationService s).state

/-- The states of a receiver that `InitComponents` created and on which methods
were called since, each in an environment of its own. -/
inductive Reachable : St → Prop where
  | init (next : Nat) (trace : List Event) (closeCalls : Nat) :
      Reachable { comps := {}, next := next, trace := trace, closeCalls := closeCalls }
  | call (env : Env) (m : Method) (s : St) : Reachable s → Reachable (runMethod env m s)

/-- The states reached from `s` by calling methods, each in an environment of
its own. -/
inductive Later (s : St) : St → Prop where
  | refl : Later s s
  | call (env : Env) (m : Method) (s1 : St) : Later s s1 → Later s (runMethod env m s1)

/-! ## Sample inputs -/

/-- A deployment in which no call to another package fails, with the given
storage type and the given `Enabled()` flag of the blockchain processor; the
configuration file is not named on the command line and does not exist. -/
def sampleEnv (storageType : String) (enabled : Bool) : Env where
  storageType := storageType
  blockchainEnabledKey := enabled
  newProcessor := .ok enabled
  isEtcdServerEnabled := .ok false
  getEtcdServer := none
  serverStart := none
  newEtcdClient := none
  initPricingStrategy := true
  daemonID := "daemon"
  configFlag := some { Value := "snetd.config.json", Changed := false }
  stat := fun _ => some StatError.notExist
  loadConfig := fun _ => none

/-- The payment channel service that `PaymentChannelService` builds on an empty
receiver with in-memory storage: every storage in it is the object at address 0. -/
def sampleService : escrow.PaymentChannelService :=
  { addr := 9
    storage := { addr := 2, storage := escrow.AtomicStorage.memStorage 0, metadata := { addr := 1 } }
    paymentStorage := { addr := 3, storage := escrow.AtomicStorage.memStorage 0 }
    blockchainReader :=
      { addr := 6, processor := { addr := 4, enabled := true }, organization := { addr := 5 } }
    locker := { addr := 7, storage := escrow.AtomicStorage.memStorage 0, metadata := { addr := 1 } }
    validator :=
      { addr := 8, processor := { addr := 4, enabled := true }, organization := { addr := 5 } } }

/-- The state right after `components = &Components{}` in a new process. -/
def emptyState : St :=
  { comps := {}, next := 0, trace := [], closeCalls := 0 }

end cmd

namespace escrow

theorem Cmp_eq_zero_iff (x y : Int) : Cmp x y = 0 ↔ x = y := by
  unfold Cmp
  split_ifs with h1 h2
  · have : x ≠ y := by omega
    simp [this]
  · simp [h2]
  · simp [h2]

theorem sprintf_income_message (i p : Int) :
    Sprintf "income %d does not equal to price %d" [i, p]
      = "income " ++ toString i ++ " does not equal to price " ++ toString p := by
  apply String.ext
  simp [Sprintf, sprintfChars, formatDecimal]

theorem Validate_some (i p : Int) (ctx : Option Nat) :
    Validate (NewIncomeValidator (some p)) { Income := some i, GrpcContext := ctx }
      = if i = p then .ok none
        else .ok (some { code := Code.Unauthenticated,
                         message := "income " ++ toString i
                           ++ " does not equal to price " ++ toString p }) := by
  simp only [Validate, NewIncomeValidator, NewGrpcErrorf, sprintf_income_message]
  by_cases h : i = p
  · simp [h, Cmp]
  · have : Cmp i p ≠ 0 := fun hc => h ((Cmp_eq_zero_iff i p).1 hc)
    simp [h, this]

/-- With nil pointers: two nil operands compare equal and are approved, exactly
one nil operand is a nil dereference. -/
theorem Validate_nil (i p : Int) (ctx : Option Nat) :
    Validate (NewIncomeValidator none) { Income := none, GrpcContext := ctx } = .ok none ∧
    Validate (NewIncomeValidator (some p)) { Income := none, GrpcContext := ctx }
      = .error RuntimePanic.nilPointerDereference ∧
    Validate (NewIncomeValidator none) { Income := some i, GrpcContext := ctx }
      = .error RuntimePanic.nilPointerDereference :=
  ⟨rfl, rfl, rfl⟩

/-- C1: for every non-nil income i and non-nil price p, the validator built by
`NewIncomeValidator p` approves (returns the nil error) if and only if i = p, and
it rejects with a non-nil error if and only if i < p or i > p; negative incomes
are included, the integers being unbounded. -/
theorem validate_approves_iff_income_equals_price (i p : Int) (ctx : Option Nat) :
    (Validate (NewIncomeValidator (some p)) { Income := some i, GrpcContext := ctx }
        = .ok none ↔ i = p) ∧
    ((∃ e, Validate (NewIncomeValidator (some p)) { Income := some i, GrpcContext := ctx }
        = .ok (some e)) ↔ (i < p ∨ p < i)) := by
  rw [Validate_some]
  by_cases h : i = p
  · subst h
    simp
  · have h2 : i < p ∨ p < i := by omega
    simp [h, h2]

/-- C2: `Validate` returns a non-nil error exactly when income i and price p are
both present and differ, and that error is the status with code Unauthenticated
and message "income i does not equal to price p", both numbers in decimal; no
other status is ever produced. -/
theorem validate_rejection_status (validator : incomeValidator) (data : IncomeData)
    (e : GrpcError) :
    Validate validator data = .ok (some e) ↔
      ∃ i p, data.Income = some i ∧ validator.priceInCogs = some p ∧ i ≠ p ∧
        e = { code := Code.Unauthenticated,
              message := "income " ++ toString i ++ " does not equal to price "
                ++ toString p } := by
  obtain ⟨price⟩ := validator
  obtain ⟨income, ctx⟩ := data
  cases income with
  | none => cases price <;> simp [Validate]
  | some i =>
    cases price with
    | none => simp [Validate]
    | some p =>
      have h := Validate_some i p ctx
      simp only [NewIncomeValidator] at h
      rw [h]
      by_cases hip : i = p
      · simp [hip]
      · simp only [hip, if_false, Except.ok.injEq, Option.some.injEq, ne_eq]
        constructor
        · intro he
          exact ⟨i, p, rfl, rfl, hip, he.symm⟩
        · rintro ⟨i2, p2, hi, hp, _, he⟩
          cases hi
          cases hp
          exact he.symm

/-- C3: resubmitting an already authorized amount a gives income a - a = 0, and
the validator for price p rejects that income exactly when p is not 0; for
p = 0 the zero income is approved. -/
theorem replay_income_zero_rejected_unless_price_zero (a p : Int) :
    computeIncome a a = 0 ∧
    ((∃ e, Validate (NewIncomeValidator (some p)) (incomeOfClaim a a) = .ok (some e))
        ↔ p ≠ 0) ∧
    (Validate (NewIncomeValidator (some p)) (incomeOfClaim a a) = .ok none ↔ p = 0) := by
  have h0 : computeIncome a a = 0 := by simp [computeIncome]
  refine ⟨h0, ?_, ?_⟩
  · rw [incomeOfClaim, h0, Validate_some]
    by_cases h : (0 : Int) = p
    · simp [h.symm]
    · have : p ≠ 0 := fun hp => h hp.symm
      simp [h, this]
  · rw [incomeOfClaim, h0, Validate_some]
    by_cases h : (0 : Int) = p
    · simp [h.symm]
    · have : p ≠ 0 := fun hp => h hp.symm
      simp [h, this]

/-- C4: with income computed as claimedAmount - a, the validator for price p
approves the claimed amount a + p and rejects every other one; with a = 20 and
p = 10 the claim 30 has income 10 and is approved; a claim equal to the deposit d
is approved exactly when its income d - a equals the price. -/
theorem only_claim_authorized_plus_price_approved (a p : Int) :
    (∀ c, Validate (NewIncomeValidator (some p)) (incomeOfClaim c a) = .ok none
        ↔ c = a + p) ∧
    (∀ c, (∃ e, Validate (NewIncomeValidator (some p)) (incomeOfClaim c a) = .ok (some e))
        ↔ c ≠ a + p) ∧
    (computeIncome 30 20 = 10 ∧
      Validate (NewIncomeValidator (some 10)) (incomeOfClaim 30 20) = .ok none) ∧
    (∀ d, Validate (NewIncomeValidator (some p)) (incomeOfClaim d a) = .ok none
        ↔ computeIncome d a = p) := by
  have key : ∀ c, Validate (NewIncomeValidator (some p)) (incomeOfClaim c a)
      = if c - a = p then .ok none
        else .ok (some { code := Code.Unauthenticated,
                         message := "income " ++ toString (c - a)
                           ++ " does not equal to price " ++ toString p }) := by
    intro c
    rw [incomeOfClaim, computeIncome, Validate_some]
  refine ⟨?_, ?_, ⟨by simp [computeIncome], ?_⟩, ?_⟩
  · intro c
    rw [key]
    by_cases h : c - a = p
    · have : c = a + p := by omega
      simp [h, this]
    · have : c ≠ a + p := by omega
      simp [h, this]
  · intro c
    rw [key]
    by_cases h : c - a = p
    · have : c = a + p := by omega
      simp [h, this]
    · have : c ≠ a + p := by omega
      simp [h, this]
  · rw [incomeOfClaim, Validate_some]
    simp [computeIncome]
  · intro d
    rw [key]
    by_cases h : d - a = p
    · simp [h, computeIncome]
    · simp [h, computeIncome]

/-- C2 at income 5 and at income -5 with price 10: the status and its message. -/
theorem validate_rejection_status_witness :
    Validate (NewIncomeValidator (some 10)) { Income := some 5, GrpcContext := none }
      = .ok (some { code := Code.Unauthenticated,
                    message := "income 5 does not equal to price 10" }) ∧
    Validate (NewIncomeValidator (some 10)) { Income := some (-5), GrpcContext := none }
      = .ok (some { code := Code.Unauthenticated,
                    message := "income -5 does not equal to price 10" }) :=
  ⟨(validate_rejection_status _ _ _).2 ⟨5, 10, rfl, rfl, by decide, rfl⟩,
   (validate_rejection_status _ _ _).2 ⟨-5, 10, rfl, rfl, by decide, rfl⟩⟩

end escrow

namespace cmd

/-! ## Running the monad -/

@[simp] theorem bind_apply {α β : Type} (m : M α) (f : α → M β) (s : St) :
    (m >>= f) s = match m s with
      | .ok a s1 => f a s1
      | .panic v s1 => .panic v s1 := rfl

@[simp] theorem pure_apply {α : Type} (a : α) (s : St) : (pure a : M α) s = .ok a s := rfl

@[simp] theorem getComps_apply (s : St) : getComps s = .ok s.comps s := rfl

@[simp] theorem setComps_apply (f : Components → Components) (s : St) :
    setComps f s = .ok () { s with comps := f s.comps } := rfl

@[simp] theorem emit_apply (e : Event) (s : St) :
    emit e s = .ok () { s with trace := s.trace ++ [e] } := rfl

@[simp] theorem construct_apply (fn : Constructor) (s : St) :
    construct fn s = .ok s.next
      { s with next := s.next + 1, trace := s.trace ++ [Event.constructed fn s.next] } := rfl

@[simp] theorem tickClose_apply (s : St) :
    tickClose s = .ok () { s with closeCalls := s.closeCalls + 1 } := rfl

@[simp] theorem throwPanic_apply {α : Type} (v : PanicValue) (s : St) :
    (throwPanic v : M α) s = .panic v s := rfl

@[simp] theorem logPanic_apply {α : Type} (err msg : String) (s : St) :
    (logPanic err msg : M α) s
      = .panic (PanicValue.logEntry err msg) { s with trace := s.trace ++ [Event.logPanic msg] } :=
  rfl

/-! ## Close and InitComponents -/

/-- What `Close` does to the state. -/
theorem Close_apply (s : St) :
    Close s = .ok ()
      { s with
        trace := s.trace
          ++ s.comps.etcdClient.toList.map Event.etcdClientClose
          ++ s.comps.etcdServer.toList.map Event.etcdServerClose
          ++ s.comps.blockchain.toList.map Event.processorClose,
        closeCalls := s.closeCalls + 1 } := by
  obtain ⟨c, next, trace, n⟩ := s
  simp only [Close, bind_apply, getComps_apply]
  cases h1 : c.etcdClient <;> cases h2 : c.etcdServer <;> cases h3 : c.blockchain <;>
    simp [h1, h2, h3]

/-- C9: `Close` closes the etcd client, the etcd server and the blockchain
processor, in that order, each exactly when its field is non-nil and then once;
it returns normally and leaves every field of the receiver as it was.  On a
receiver with none of the three set it makes no call at all. -/
theorem Close_closes_exactly_the_initialised (s : St) :
    Close s = .ok ()
      { s with
        trace := s.trace
          ++ s.comps.etcdClient.toList.map Event.etcdClientClose
          ++ s.comps.etcdServer.toList.map Event.etcdServerClose
          ++ s.comps.blockchain.toList.map Event.processorClose,
        closeCalls := s.closeCalls + 1 } ∧
    ∀ (next : Nat) (trace : List Event) (n : Nat),
      Close { comps := {}, next := next, trace := trace, closeCalls := n }
        = .ok () { comps := {}, next := next, trace := trace, closeCalls := n + 1 } := by
  constructor
  · exact Close_apply s
  · intro next trace n
    simp [Close]

/-- Loading the configuration never touches the receiver or the ghost counter. -/
theorem loadConfig_frame (env : Env) (flag : Option Flag) (s : St) :
    (loadConfigFileFromCommandLine env flag s).state.comps = s.comps ∧
    (loadConfigFileFromCommandLine env flag s).state.closeCalls = s.closeCalls := by
  unfold loadConfigFileFromCommandLine
  cases flag with
  | none => simp [Res.state]
  | some f =>
    simp only
    split
    · cases h : env.loadConfig f.Value <;> simp [h, Res.state]
    · simp [Res.state]

/-- Loading the configuration panics exactly when the flag is missing or the
file is read and `config.LoadConfig` fails. -/
theorem loadConfig_panics_iff (env : Env) (flag : Option Flag) (s : St) :
    (∃ v s1, loadConfigFileFromCommandLine env flag s = .panic v s1) ↔
      (flag = none ∨ ∃ f err, flag = some f ∧
        (f.Changed = true ∨ isFileExist env f.Value = true) ∧
        env.loadConfig f.Value = some err) := by
  unfold loadConfigFileFromCommandLine
  cases flag with
  | none => simp
  | some f =>
    simp only
    split
    · rename_i hc
      cases h : env.loadConfig f.Value with
      | none => simp [h]
      | some err =>
        simp only [Bool.or_eq_true] at hc
        simp [h, hc]
    · rename_i hc
      simp only [Bool.or_eq_true, not_or] at hc
      simp [hc]

/-- C10: `InitComponents` returns exactly when loading the configuration
returns, and then it returns a non-nil `Components` with every field unset
without having called `Close`; when loading panics, `Close` is called once on
the still empty components and the panic that reaches the caller carries the
fixed string "re-panic after components cleanup", whatever the original value
was.  Loading panics when the flag is missing or the file is read and cannot be
loaded. -/
theorem InitComponents_returns_fresh_or_repanics (env : Env) (s : St) :
    (InitComponents env s =
      match loadConfigFileFromCommandLine env env.configFlag (newComponents s) with
      | .ok _ s1 => .ok (some {}) s1
      | .panic _ s1 => .panic (PanicValue.str "re-panic after components cleanup")
          { s1 with closeCalls := s1.closeCalls + 1 }) ∧
    (∀ r s1, InitComponents env s = .ok r s1 →
      r = some {} ∧ s1.comps = {} ∧ s1.closeCalls = s.closeCalls) ∧
    (∀ v s1, InitComponents env s = .panic v s1 →
      v = PanicValue.str "re-panic after components cleanup" ∧
      s1.comps = {} ∧ s1.closeCalls = s.closeCalls + 1) ∧
    ((∃ v s1, InitComponents env s = .panic v s1) ↔
      (env.configFlag = none ∨ ∃ f err, env.configFlag = some f ∧
        (f.Changed = true ∨ isFileExist env f.Value = true) ∧
        env.loadConfig f.Value = some err)) := by
  have hframe := loadConfig_frame env env.configFlag (newComponents s)
  have hiff := loadConfig_panics_iff env env.configFlag (newComponents s)
  have heq : InitComponents env s =
      match loadConfigFileFromCommandLine env env.configFlag (newComponents s) with
      | .ok _ s1 => .ok (some {}) s1
      | .panic _ s1 => .panic (PanicValue.str "re-panic after components cleanup")
          { s1 with closeCalls := s1.closeCalls + 1 } := by
    unfold InitComponents
    rcases hL : loadConfigFileFromCommandLine env env.configFlag (newComponents s)
      with ⟨a, s1⟩ | ⟨v, s1⟩
    · rw [hL] at hframe
      simp only [Res.state, newComponents] at hframe
      simp only [hframe.1]
    · rw [hL] at hframe
      simp only [Res.state, newComponents] at hframe
      have hc := Close_apply s1
      simp only [bind_apply, hc, hframe.1, throwPanic_apply]
      simp
  refine ⟨heq, ?_, ?_, ?_⟩
  · intro r s1 h
    rw [heq] at h
    rcases hL : loadConfigFileFromCommandLine env env.configFlag (newComponents s)
      with ⟨a, s2⟩ | ⟨v, s2⟩
    · rw [hL] at h hframe
      simp only [Res.state, newComponents] at hframe
      simp only [Res.ok.injEq] at h
      obtain ⟨h1, h2⟩ := h
      subst h2
      exact ⟨h1.symm, hframe.1, hframe.2⟩
    · rw [hL] at h
      simp at h
  · intro v s1 h
    rw [heq] at h
    rcases hL : loadConfigFileFromCommandLine env env.configFlag (newComponents s)
      with ⟨a, s2⟩ | ⟨v2, s2⟩
    · rw [hL] at h
      simp at h
    · rw [hL] at h hframe
      simp only [Res.state, newComponents] at hframe
      simp only [Res.panic.injEq] at h
      obtain ⟨h1, h2⟩ := h
      subst h2
      exact ⟨h1.symm, hframe.1, by simp [hframe.2]⟩
  · rw [← hiff, heq]
    rcases hL : loadConfigFileFromCommandLine env env.configFlag (newComponents s)
      with ⟨a, s2⟩ | ⟨v2, s2⟩
    · simp
    · simp

/-- C9 on a receiver holding an etcd client and a processor but no etcd server:
the client is closed, then the processor, and nothing else happens. -/
theorem Close_closes_exactly_the_initialised_witness :
    Close { comps := { etcdClient := some { addr := 1 },
                       blockchain := some { addr := 2, enabled := true } },
            next := 3, trace := [], closeCalls := 0 }
      = .ok ()
        { comps := { etcdClient := some { addr := 1 },
                     blockchain := some { addr := 2, enabled := true } },
          next := 3,
          trace := [Event.etcdClientClose { addr := 1 },
                    Event.processorClose { addr := 2, enabled := true }],
          closeCalls := 1 } :=
  (Close_closes_exactly_the_initialised
    { comps := { etcdClient := some { addr := 1 },
                 blockchain := some { addr := 2, enabled := true } },
      next := 3, trace := [], closeCalls := 0 }).1

/-- C10 at three inputs: no configuration file gives the empty components; a
configuration file that cannot be loaded, or a missing flag, gives the panic with
the fixed string after one call of `Close`. -/
theorem InitComponents_returns_fresh_or_repanics_witness :
    InitComponents (sampleEnv "" true) emptyState
      = .ok (some {})
        { emptyState with
          trace := [Event.logInfo "Configuration file is not set, using default configuration"] } ∧
    InitComponents
        { sampleEnv "" true with
          configFlag := some { Value := "snetd.config.json", Changed := true },
          loadConfig := fun _ => some "malformed" } emptyState
      = .panic (PanicValue.str "re-panic after components cleanup")
        { emptyState with
          trace := [Event.loadConfig "snetd.config.json",
                    Event.logPanic "Error reading configuration file"],
          closeCalls := 1 } ∧
    InitComponents { sampleEnv "" true with configFlag := none } emptyState
      = .panic (PanicValue.str "re-panic after components cleanup")
        { emptyState with closeCalls := 1 } :=
  ⟨(InitComponents_returns_fresh_or_repanics (sampleEnv "" true) emptyState).1,
   (InitComponents_returns_fresh_or_repanics
      { sampleEnv "" true with
        configFlag := some { Value := "snetd.config.json", Changed := true },
        loadConfig := fun _ => some "malformed" } emptyState).1,
   (InitComponents_returns_fresh_or_repanics
      { sampleEnv "" true with configFlag := none } emptyState).1⟩

/-! ## The storage backend -/

/-- Running `EtcdClient` when the client can be created: it returns the client
it leaves in the field and does not touch the storage field. -/
theorem EtcdClient_returns (env : Env) (s : St)
    (h : env.newEtcdClient = none ∨ s.comps.etcdClient ≠ none) :
    ∃ c s1, EtcdClient env s = .ok c s1 ∧ s1.comps.etcdClient = some c ∧
      s1.comps.atomicStorage = s.comps.atomicStorage := by
  unfold EtcdClient
  simp only [bind_apply, getComps_apply]
  cases hc : s.comps.etcdClient with
  | some c => exact ⟨c, s, by simp, hc, rfl⟩
  | none =>
    have hn : env.newEtcdClient = none := by
      rcases h with h | h
      · exact h
      · exact absurd hc h
    simp only [OrganizationMetaData, bind_apply, getComps_apply, hn]
    cases ho : s.comps.organizationMetaData <;>
      simp only [bind_apply, construct_apply, setComps_apply, pure_apply] <;>
      exact ⟨_, _, rfl, rfl, rfl⟩

/-- C6: on a receiver whose `atomicStorage` is nil, `AtomicStorage` takes the
etcd client as backend exactly when the configured storage type is the string
"etcd": then it runs `EtcdClient` and stores and returns that client (or panics
as `EtcdClient` does), and it returns whenever the client can be created.  For
every other value it returns a newly allocated in-memory storage, leaves the
etcd client field alone and calls nothing but `NewMemStorage`. -/
theorem AtomicStorage_backend_selected_by_storage_type (env : Env) (s : St)
    (h : s.comps.atomicStorage = none) :
    (env.storageType = "etcd" →
      AtomicStorage env s =
        match EtcdClient env s with
        | .ok client s1 => .ok (escrow.AtomicStorage.etcdClient client)
            { s1 with comps :=
                { s1.comps with atomicStorage := some (escrow.AtomicStorage.etcdClient client) } }
        | .panic v s1 => .panic v s1) ∧
    (env.storageType = "etcd" → (env.newEtcdClient = none ∨ s.comps.etcdClient ≠ none) →
      ∃ client s1, AtomicStorage env s = .ok (escrow.AtomicStorage.etcdClient client) s1 ∧
        s1.comps.etcdClient = some client ∧
        s1.comps.atomicStorage = some (escrow.AtomicStorage.etcdClient client)) ∧
    (env.storageType ≠ "etcd" →
      AtomicStorage env s = .ok (escrow.AtomicStorage.memStorage s.next)
        { s with
          comps := { s.comps with
            atomicStorage := some (escrow.AtomicStorage.memStorage s.next) },
          next := s.next + 1,
          trace := s.trace ++ [Event.constructed Constructor.NewMemStorage s.next] }) ∧
    (∀ a s1, AtomicStorage env s = .ok a s1 →
      ((∃ client, a = escrow.AtomicStorage.etcdClient client) ↔ env.storageType = "etcd") ∧
      ((∃ addr, a = escrow.AtomicStorage.memStorage addr) ↔ env.storageType ≠ "etcd")) := by
  have hetcd : env.storageType = "etcd" →
      AtomicStorage env s =
        match EtcdClient env s with
        | .ok client s1 => .ok (escrow.AtomicStorage.etcdClient client)
            { s1 with comps :=
                { s1.comps with atomicStorage := some (escrow.AtomicStorage.etcdClient client) } }
        | .panic v s1 => .panic v s1 := by
    intro ht
    simp only [AtomicStorage, bind_apply, getComps_apply, h, ht, if_true]
    rcases EtcdClient env s with ⟨c, s1⟩ | ⟨v, s1⟩ <;> simp
  have hmem : env.storageType ≠ "etcd" →
      AtomicStorage env s = .ok (escrow.AtomicStorage.memStorage s.next)
        { s with
          comps := { s.comps with
            atomicStorage := some (escrow.AtomicStorage.memStorage s.next) },
          next := s.next + 1,
          trace := s.trace ++ [Event.constructed Constructor.NewMemStorage s.next] } := by
    intro ht
    simp [AtomicStorage, h, ht]
  refine ⟨hetcd, ?_, hmem, ?_⟩
  · intro ht hc
    obtain ⟨c, s1, h1, h2, _⟩ := EtcdClient_returns env s hc
    refine ⟨c, { s1 with comps :=
      { s1.comps with atomicStorage := some (escrow.AtomicStorage.etcdClient c) } }, ?_, ?_, ?_⟩
    · rw [hetcd ht, h1]
    · exact h2
    · rfl
  · intro a s1 hr
    by_cases ht : env.storageType = "etcd"
    · rw [hetcd ht] at hr
      rcases hE : EtcdClient env s with ⟨c, s2⟩ | ⟨v, s2⟩
      · rw [hE] at hr
        simp only [Res.ok.injEq] at hr
        simp [← hr.1, ht]
      · rw [hE] at hr
        simp at hr
    · rw [hmem ht] at hr
      simp only [Res.ok.injEq] at hr
      simp [← hr.1, ht]

/-- C6 at the storage types "" and "ETCD" and "etcd" on an empty receiver: the
first two give the in-memory storage and no etcd client, the last the client. -/
theorem AtomicStorage_backend_selected_by_storage_type_witness :
    emptyState.comps.atomicStorage = none ∧
    AtomicStorage (sampleEnv "" false) emptyState
      = .ok (escrow.AtomicStorage.memStorage 0)
        { comps := { atomicStorage := some (escrow.AtomicStorage.memStorage 0) },
          next := 1,
          trace := [Event.constructed Constructor.NewMemStorage 0],
          closeCalls := 0 } ∧
    AtomicStorage (sampleEnv "ETCD" false) emptyState
      = .ok (escrow.AtomicStorage.memStorage 0)
        { comps := { atomicStorage := some (escrow.AtomicStorage.memStorage 0) },
          next := 1,
          trace := [Event.constructed Constructor.NewMemStorage 0],
          closeCalls := 0 } ∧
    (∃ client s1, AtomicStorage (sampleEnv "etcd" false) emptyState
        = .ok (escrow.AtomicStorage.etcdClient client) s1 ∧
      s1.comps.etcdClient = some client ∧
      s1.comps.atomicStorage = some (escrow.AtomicStorage.etcdClient client)) :=
  ⟨rfl,
   (AtomicStorage_backend_selected_by_storage_type (sampleEnv "" false) emptyState rfl).2.2.1
     (by decide),
   (AtomicStorage_backend_selected_by_storage_type (sampleEnv "ETCD" false) emptyState rfl).2.2.1
     (by decide),
   (AtomicStorage_backend_selected_by_storage_type (sampleEnv "etcd" false) emptyState rfl).2.1
     rfl (Or.inl rfl)⟩

/-! ## Footprints of the methods -/

theorem Mod.refl (W : List Field) (c : Components) : Mod W c c :=
  fun _ => Or.inl rfl

theorem Mod.trans {W : List Field} {c1 c2 c3 : Components}
    (h1 : Mod W c1 c2) (h2 : Mod W c2 c3) : Mod W c1 c3 := by
  intro f
  rcases h1 f with h1 | h1
  · rcases h2 f with h2 | h2
    · exact Or.inl (h2.trans h1)
    · exact Or.inr ⟨h2.1, h1 ▸ h2.2⟩
  · exact Or.inr h1

theorem Mod.mono {W1 W2 : List Field} {c1 c2 : Components}
    (hsub : W1 ⊆ W2) (h : Mod W1 c1 c2) : Mod W2 c1 c2 := by
  intro f
  rcases h f with h | h
  · exact Or.inl h
  · exact Or.inr ⟨hsub h.1, h.2⟩

/-- A field that is set keeps its value. -/
theorem Mod.keep {W : List Field} {c1 c2 : Components} (h : Mod W c1 c2)
    (f : Field) (x : f.type) (hx : c1.get f = some x) : c2.get f = some x := by
  rcases h f with h | h
  · rw [h, hx]
  · rw [hx] at h
    exact absurd h.2 (by simp)

/-- A field outside the footprint is unchanged. -/
theorem Mod.same {W : List Field} {c1 c2 : Components} (h : Mod W c1 c2)
    (f : Field) (hf : f ∉ W) : c2.get f = c1.get f := by
  rcases h f with h | h
  · exact h
  · exact absurd h.1 hf

/-- Assigning to a field of the footprint that was nil at the start. -/
theorem Mod.set {W : List Field} {c0 : Components} (fld : Field) (hW : fld ∈ W)
    (h0 : c0.get fld = none) (g : Components → Components)
    (hg : ∀ c f, f ≠ fld → (g c).get f = c.get f) :
    ∀ c, Mod W c0 c → Mod W c0 (g c) := by
  intro c h f
  by_cases hf : f = fld
  · subst hf
    exact Or.inr ⟨hW, h0⟩
  · rw [hg c f hf]
    exact h f

theorem inv_bind {α β : Type} {P : Components → Prop} {m : M α} {f : α → M β}
    (hm : Inv P m) (hf : ∀ a, Inv P (f a)) : Inv P (m >>= f) := by
  intro s hs
  have h1 := hm s hs
  simp only [bind_apply]
  rcases hms : m s with ⟨a, s1⟩ | ⟨v, s1⟩
  · rw [hms] at h1
    exact hf a s1 h1
  · rw [hms] at h1
    exact h1

theorem inv_pure {α : Type} {P : Components → Prop} (a : α) : Inv P (pure a : M α) :=
  fun _ hs => hs

theorem inv_getComps {P : Components → Prop} : Inv P getComps :=
  fun _ hs => hs

theorem inv_emit {P : Components → Prop} (e : Event) : Inv P (emit e) :=
  fun _ hs => hs

theorem inv_construct {P : Components → Prop} (fn : Constructor) : Inv P (construct fn) :=
  fun _ hs => hs

theorem inv_tickClose {P : Components → Prop} : Inv P tickClose :=
  fun _ hs => hs

theorem inv_throwPanic {α : Type} {P : Components → Prop} (v : PanicValue) :
    Inv P (throwPanic v : M α) :=
  fun _ hs => hs

theorem inv_logPanic {α : Type} {P : Components → Prop} (err msg : String) :
    Inv P (logPanic err msg : M α) :=
  fun _ hs => hs

theorem inv_setComps {P : Components → Prop} {g : Components → Components}
    (h : ∀ c, P c → P (g c)) : Inv P (setComps g) :=
  fun s hs => h s.comps hs

theorem inv_of_fp {α : Type} {W1 W : List Field} {m : M α} {c0 : Components}
    (hfp : Fp W1 m) (hsub : W1 ⊆ W) : Inv (Mod W c0) m :=
  fun s hs => hs.trans ((hfp s).mono hsub)

/-- Running a body from the state the footprint is measured from. -/
theorem inv_run {α : Type} {W : List Field} {m : M α} (s : St)
    (h : Inv (Mod W s.comps) m) : Mod W s.comps (m s).state.comps :=
  h s (Mod.refl W s.comps)

theorem getComps_bind_apply {α : Type} (f : Components → M α) (s : St) :
    (getComps >>= f) s = f s.comps s := rfl

set_option linter.unusedTactic false

set_option linter.unreachableTactic false

theorem ServiceMetaData_fp :
    Fp [Field.serviceMetadata] (ServiceMetaData) := by
  intro s
  unfold ServiceMetaData
  rw [getComps_bind_apply]
  cases hF : s.comps.serviceMetadata with
  | some x => exact Mod.refl _ _
  | none =>
    apply inv_run
    repeat' first
      | with_reducible exact inv_pure _
      | with_reducible exact inv_construct _
      | with_reducible exact inv_emit _
      | with_reducible exact inv_getComps
      | with_reducible exact inv_tickClose
      | with_reducible exact inv_logPanic _ _
      | with_reducible exact inv_throwPanic _
      | with_reducible refine inv_bind ?_ (fun _ => ?_)
      | exact inv_setComps (Mod.set Field.serviceMetadata (by decide) hF _
          (by intro c f hf; cases f <;> first | rfl | exact absurd rfl hf))
      | split

theorem OrganizationMetaData_fp :
    Fp [Field.organizationMetaData] (OrganizationMetaData) := by
  intro s
  unfold OrganizationMetaData
  rw [getComps_bind_apply]
  cases hF : s.comps.organizationMetaData with
  | some x => exact Mod.refl _ _
  | none =>
    apply inv_run
    repeat' first
      | with_reducible exact inv_pure _
      | with_reducible exact inv_construct _
      | with_reducible exact inv_emit _
      | with_reducible exact inv_getComps
      | with_reducible exact inv_tickClose
      | with_reducible exact inv_logPanic _ _
      | with_reducible exact inv_throwPanic _
      | with_reducible refine inv_bind ?_ (fun _ => ?_)
      | exact inv_setComps (Mod.set Field.organizationMetaData (by decide) hF _
          (by intro c f hf; cases f <;> first | rfl | exact absurd rfl hf))
      | split

theorem Blockchain_fp (env : Env) :
    Fp [Field.serviceMetadata, Field.blockchain] (Blockchain env) := by
  intro s
  unfold Blockchain
  rw [getComps_bind_apply]
  cases hF : s.comps.blockchain with
  | some x => exact Mod.refl _ _
  | none =>
    apply inv_run
    repeat' first
      | with_reducible exact inv_pure _
      | with_reducible exact inv_construct _
      | with_reducible exact inv_emit _
      | with_reducible exact inv_getComps
      | with_reducible exact inv_tickClose
      | with_reducible exact inv_logPanic _ _
      | with_reducible exact inv_throwPanic _
      | with_reducible exact inv_of_fp (ServiceMetaData_fp) (by decide)
      | with_reducible refine inv_bind ?_ (fun _ => ?_)
      | exact inv_setComps (Mod.set Field.blockchain (by decide) hF _
          (by intro c f hf; cases f <;> first | rfl | exact absurd rfl hf))
      | split

theorem EtcdServer_fp (env : Env) :
    Fp [Field.etcdServer] (EtcdServer env) := by
  intro s
  unfold EtcdServer
  rw [getComps_bind_apply]
  cases hF : s.comps.etcdServer with
  | some x => exact Mod.refl _ _
  | none =>
    apply inv_run
    repeat' first
      | with_reducible exact inv_pure _
      | with_reducible exact inv_construct _
      | with_reducible exact inv_emit _
      | with_reducible exact inv_getComps
      | with_reducible exact inv_tickClose
      | with_reducible exact inv_logPanic _ _
      | with_reducible exact inv_throwPanic _
      | with_reducible refine inv_bind ?_ (fun _ => ?_)
      | exact inv_setComps (Mod.set Field.etcdServer (by decide) hF _
          (by intro c f hf; cases f <;> first | rfl | exact absurd rfl hf))
      | split

theorem EtcdClient_fp (env : Env) :
    Fp [Field.organizationMetaData, Field.etcdClient] (EtcdClient env) := by
  intro s
  unfold EtcdClient
  rw [getComps_bind_apply]
  cases hF : s.comps.etcdClient with
  | some x => exact Mod.refl _ _
  | none =>
    apply inv_run
    repeat' first
      | with_reducible exact inv_pure _
      | with_reducible exact inv_construct _
      | with_reducible exact inv_emit _
      | with_reducible exact inv_getComps
      | with_reducible exact inv_tickClose
      | with_reducible exact inv_logPanic _ _
      | with_reducible exact inv_throwPanic _
      | with_reducible exact inv_of_fp (OrganizationMetaData_fp) (by decide)
      | with_reducible refine inv_bind ?_ (fun _ => ?_)
      | exact inv_setComps (Mod.set Field.etcdClient (by decide) hF _
          (by intro c f hf; cases f <;> first | rfl | exact absurd rfl hf))
      | split

theorem AtomicStorage_fp (env : Env) :
    Fp [Field.organizationMetaData, Field.etcdClient, Field.atomicStorage] (AtomicStorage env) := by
  intro s
  unfold AtomicStorage
  rw [getComps_bind_apply]
  cases hF : s.comps.atomicStorage with
  | some x => exact Mod.refl _ _
  | none =>
    apply inv_run
    repeat' first
      | with_reducible exact inv_pure _
      | with_reducible exact inv_construct _
      | with_reducible exact inv_emit _
      | with_reducible exact inv_getComps
      | with_reducible exact inv_tickClose
      | with_reducible exact inv_logPanic _ _
      | with_reducible exact inv_throwPanic _
      | with_reducible exact inv_of_fp (EtcdClient_fp env) (by decide)
      | with_reducible refine inv_bind ?_ (fun _ => ?_)
      | exact inv_setComps (Mod.set Field.atomicStorage (by decide) hF _
          (by intro c f hf; cases f <;> first | rfl | exact absurd rfl hf))
      | split

theorem LockerStorage_fp (env : Env) :
    Fp [Field.organizationMetaData, Field.etcdClient, Field.atomicStorage, Field.serviceMetadata, Field.etcdLockerStorage] (LockerStorage env) := by
  intro s
  unfold LockerStorage
  rw [getComps_bind_apply]
  cases hF : s.comps.etcdLockerStorage with
  | some x => exact Mod.refl _ _
  | none =>
    apply inv_run
    repeat' first
      | with_reducible exact inv_pure _
      | with_reducible exact inv_construct _
      | with_reducible exact inv_emit _
      | with_reducible exact inv_getComps
      | with_reducible exact inv_tickClose
      | with_reducible exact inv_logPanic _ _
      | with_reducible exact inv_throwPanic _
      | with_reducible exact inv_of_fp (AtomicStorage_fp env) (by decide)
      | with_reducible exact inv_of_fp (ServiceMetaData_fp) (by decide)
      | with_reducible refine inv_bind ?_ (fun _ => ?_)
      | exact inv_setComps (Mod.set Field.etcdLockerStorage (by decide) hF _
          (by intro c f hf; cases f <;> first | rfl | exact absurd rfl hf))
      | split

theorem PaymentStorage_fp (env : Env) :
    Fp [Field.organizationMetaData, Field.etcdClient, Field.atomicStorage, Field.paymentStorage] (PaymentStorage env) := by
  intro s
  unfold PaymentStorage
  rw [getComps_bind_apply]
  cases hF : s.comps.paymentStorage with
  | some x => exact Mod.refl _ _
  | none =>
    apply inv_run
    repeat' first
      | with_reducible exact inv_pure _
      | with_reducible exact inv_construct _
      | with_reducible exact inv_emit _
      | with_reducible exact inv_getComps
      | with_reducible exact inv_tickClose
      | with_reducible exact inv_logPanic _ _
      | with_reducible exact inv_throwPanic _
      | with_reducible exact inv_of_fp (AtomicStorage_fp env) (by decide)
      | with_reducible refine inv_bind ?_ (fun _ => ?_)
      | exact inv_setComps (Mod.set Field.paymentStorage (by decide) hF _
          (by intro c f hf; cases f <;> first | rfl | exact absurd rfl hf))
      | split

theorem PaymentChannelService_fp (env : Env) :
    Fp [Field.organizationMetaData, Field.etcdClient, Field.atomicStorage, Field.paymentStorage, Field.serviceMetadata, Field.blockchain, Field.paymentChannelService] (PaymentChannelService env) := by
  intro s
  unfold PaymentChannelService
  rw [getComps_bind_apply]
  cases hF : s.comps.paymentChannelService with
  | some x => exact Mod.refl _ _
  | none =>
    apply inv_run
    repeat' first
      | with_reducible exact inv_pure _
      | with_reducible exact inv_construct _
      | with_reducible exact inv_emit _
      | with_reducible exact inv_getComps
      | with_reducible exact inv_tickClose
      | with_reducible exact inv_logPanic _ _
      | with_reducible exact inv_throwPanic _
      | with_reducible exact inv_of_fp (AtomicStorage_fp env) (by decide)
      | with_reducible exact inv_of_fp (ServiceMetaData_fp) (by decide)
      | with_reducible exact inv_of_fp (PaymentStorage_fp env) (by decide)
      | with_reducible exact inv_of_fp (Blockchain_fp env) (by decide)
      | with_reducible exact inv_of_fp (OrganizationMetaData_fp) (by decide)
      | with_reducible refine inv_bind ?_ (fun _ => ?_)
      | exact inv_setComps (Mod.set Field.paymentChannelService (by decide) hF _
          (by intro c f hf; cases f <;> first | rfl | exact absurd rfl hf))
      | split

theorem PricingStrategy_fp (env : Env) :
    Fp [Field.serviceMetadata, Field.priceStrategy] (PricingStrategy env) := by
  intro s
  unfold PricingStrategy
  rw [getComps_bind_apply]
  cases hF : s.comps.priceStrategy with
  | some x => exact Mod.refl _ _
  | none =>
    apply inv_run
    repeat' first
      | with_reducible exact inv_pure _
      | with_reducible exact inv_construct _
      | with_reducible exact inv_emit _
      | with_reducible exact inv_getComps
      | with_reducible exact inv_tickClose
      | with_reducible exact inv_logPanic _ _
      | with_reducible exact inv_throwPanic _
      | with_reducible exact inv_of_fp (ServiceMetaData_fp) (by decide)
      | with_reducible refine inv_bind ?_ (fun _ => ?_)
      | exact inv_setComps (Mod.set Field.priceStrategy (by decide) hF _
          (by intro c f hf; cases f <;> first | rfl | exact absurd rfl hf))
      | split

theorem EscrowPaymentHandler_fp (env : Env) :
    Fp [Field.organizationMetaData, Field.etcdClient, Field.atomicStorage, Field.paymentStorage, Field.serviceMetadata, Field.blockchain, Field.paymentChannelService, Field.priceStrategy, Field.escrowPaymentHandler] (EscrowPaymentHandler env) := by
  intro s
  unfold EscrowPaymentHandler
  rw [getComps_bind_apply]
  cases hF : s.comps.escrowPaymentHandler with
  | some x => exact Mod.refl _ _
  | none =>
    apply inv_run
    repeat' first
      | with_reducible exact inv_pure _
      | with_reducible exact inv_construct _
      | with_reducible exact inv_emit _
      | with_reducible exact inv_getComps
      | with_reducible exact inv_tickClose
      | with_reducible exact inv_logPanic _ _
      | with_reducible exact inv_throwPanic _
      | with_reducible exact inv_of_fp (PaymentChannelService_fp env) (by decide)
      | with_reducible exact inv_of_fp (Blockchain_fp env) (by decide)
      | with_reducible exact inv_of_fp (PricingStrategy_fp env) (by decide)
      | with_reducible refine inv_bind ?_ (fun _ => ?_)
      | exact inv_setComps (Mod.set Field.escrowPaymentHandler (by decide) hF _
          (by intro c f hf; cases f <;> first | rfl | exact absurd rfl hf))
      | split

theorem FreeCallPaymentHandler_fp (env : Env) :
    Fp [Field.serviceMetadata, Field.blockchain, Field.organizationMetaData, Field.freeCallPaymentHandler] (FreeCallPaymentHandler env) := by
  intro s
  unfold FreeCallPaymentHandler
  rw [getComps_bind_apply]
  cases hF : s.comps.freeCallPaymentHandler with
  | some x => exact Mod.refl _ _
  | none =>
    apply inv_run
    repeat' first
      | with_reducible exact inv_pure _
      | with_reducible exact inv_construct _
      | with_reducible exact inv_emit _
      | with_reducible exact inv_getComps
      | with_reducible exact inv_tickClose
      | with_reducible exact inv_logPanic _ _
      | with_reducible exact inv_throwPanic _
      | with_reducible exact inv_of_fp (Blockchain_fp env) (by decide)
      | with_reducible exact inv_of_fp (OrganizationMetaData_fp) (by decide)
      | with_reducible refine inv_bind ?_ (fun _ => ?_)
      | exact inv_setComps (Mod.set Field.freeCallPaymentHandler (by decide) hF _
          (by intro c f hf; cases f <;> first | rfl | exact absurd rfl hf))
      | split

theorem ChannelBroadcast_fp :
    Fp [Field.configurationBroadcaster] (ChannelBroadcast) := by
  intro s
  unfold ChannelBroadcast
  rw [getComps_bind_apply]
  cases hF : s.comps.configurationBroadcaster with
  | some x => exact Mod.refl _ _
  | none =>
    apply inv_run
    repeat' first
      | with_reducible exact inv_pure _
      | with_reducible exact inv_construct _
      | with_reducible exact inv_emit _
      | with_reducible exact inv_getComps
      | with_reducible exact inv_tickClose
      | with_reducible exact inv_logPanic _ _
      | with_reducible exact inv_throwPanic _
      | with_reducible refine inv_bind ?_ (fun _ => ?_)
      | exact inv_setComps (Mod.set Field.configurationBroadcaster (by decide) hF _
          (by intro c f hf; cases f <;> first | rfl | exact absurd rfl hf))
      | split

theorem ConfigurationService_fp :
    Fp [Field.configurationBroadcaster, Field.configurationService] (ConfigurationService) := by
  intro s
  unfold ConfigurationService
  rw [getComps_bind_apply]
  cases hF : s.comps.configurationService with
  | some x => exact Mod.refl _ _
  | none =>
    apply inv_run
    repeat' first
      | with_reducible exact inv_pure _
      | with_reducible exact inv_construct _
      | with_reducible exact inv_emit _
      | with_reducible exact inv_getComps
      | with_reducible exact inv_tickClose
      | with_reducible exact inv_logPanic _ _
      | with_reducible exact inv_throwPanic _
      | with_reducible exact inv_of_fp (ChannelBroadcast_fp) (by decide)
      | with_reducible refine inv_bind ?_ (fun _ => ?_)
      | exact inv_setComps (Mod.set Field.configurationService (by decide) hF _
          (by intro c f hf; cases f <;> first | rfl | exact absurd rfl hf))
      | split

theorem DaemonHeartBeat_fp (env : Env) :
    Fp [Field.organizationMetaData, Field.daemonHeartbeat] (DaemonHeartBeat env) := by
  intro s
  unfold DaemonHeartBeat
  rw [getComps_bind_apply]
  cases hF : s.comps.daemonHeartbeat with
  | some x => exact Mod.refl _ _
  | none =>
    apply inv_run
    repeat' first
      | with_reducible exact inv_pure _
      | with_reducible exact inv_construct _
      | with_reducible exact inv_emit _
      | with_reducible exact inv_getComps
      | with_reducible exact inv_tickClose
      | with_reducible exact inv_logPanic _ _
      | with_reducible exact inv_throwPanic _
      | with_reducible exact inv_of_fp (OrganizationMetaData_fp) (by decide)
      | with_reducible refine inv_bind ?_ (fun _ => ?_)
      | exact inv_setComps (Mod.set Field.daemonHeartbeat (by decide) hF _
          (by intro c f hf; cases f <;> first | rfl | exact absurd rfl hf))
      | split

theorem GrpcPaymentValidationInterceptor_fp (env : Env) :
    Fp [Field.organizationMetaData, Field.etcdClient, Field.atomicStorage, Field.paymentStorage, Field.serviceMetadata, Field.blockchain, Field.paymentChannelService, Field.priceStrategy, Field.escrowPaymentHandler, Field.freeCallPaymentHandler] (GrpcPaymentValidationInterceptor env) := by
  intro s
  unfold GrpcPaymentValidationInterceptor
  apply inv_run
  repeat' first
    | with_reducible exact inv_pure _
    | with_reducible exact inv_construct _
    | with_reducible exact inv_emit _
    | with_reducible exact inv_getComps
    | with_reducible exact inv_tickClose
    | with_reducible exact inv_logPanic _ _
    | with_reducible exact inv_throwPanic _
    | with_reducible exact inv_of_fp (Blockchain_fp env) (by decide)
    | with_reducible exact inv_of_fp (EscrowPaymentHandler_fp env) (by decide)
    | with_reducible exact inv_of_fp (FreeCallPaymentHandler_fp env) (by decide)
    | with_reducible refine inv_bind ?_ (fun _ => ?_)
    | split

theorem GrpcInterceptor_fp (env : Env) :
    Fp [Field.organizationMetaData, Field.etcdClient, Field.atomicStorage, Field.paymentStorage, Field.serviceMetadata, Field.blockchain, Field.paymentChannelService, Field.priceStrategy, Field.escrowPaymentHandler, Field.freeCallPaymentHandler, Field.configurationBroadcaster, Field.grpcInterceptor] (GrpcInterceptor env) := by
  intro s
  unfold GrpcInterceptor
  rw [getComps_bind_apply]
  cases hF : s.comps.grpcInterceptor with
  | some x => exact Mod.refl _ _
  | none =>
    apply inv_run
    repeat' first
      | with_reducible exact inv_pure _
      | with_reducible exact inv_construct _
      | with_reducible exact inv_emit _
      | with_reducible exact inv_getComps
      | with_reducible exact inv_tickClose
      | with_reducible exact inv_logPanic _ _
      | with_reducible exact inv_throwPanic _
      | with_reducible exact inv_of_fp (OrganizationMetaData_fp) (by decide)
      | with_reducible exact inv_of_fp (Blockchain_fp env) (by decide)
      | with_reducible exact inv_of_fp (ChannelBroadcast_fp) (by decide)
      | with_reducible exact inv_of_fp (GrpcPaymentValidationInterceptor_fp env) (by decide)
      | with_reducible refine inv_bind ?_ (fun _ => ?_)
      | exact inv_setComps (Mod.set Field.grpcInterceptor (by decide) hF _
          (by intro c f hf; cases f <;> first | rfl | exact absurd rfl hf))
      | split

theorem PaymentChannelStateService_fp (env : Env) :
    Fp [Field.organizationMetaData, Field.etcdClient, Field.atomicStorage, Field.paymentStorage, Field.serviceMetadata, Field.blockchain, Field.paymentChannelService, Field.paymentChannelStateService] (PaymentChannelStateService env) := by
  intro s
  unfold PaymentChannelStateService
  split
  · exact Mod.refl _ _
  · rw [getComps_bind_apply]
    cases hF : s.comps.paymentChannelStateService with
    | some x => exact Mod.refl _ _
    | none =>
      apply inv_run
      repeat' first
        | with_reducible exact inv_pure _
        | with_reducible exact inv_construct _
        | with_reducible exact inv_emit _
        | with_reducible exact inv_getComps
        | with_reducible exact inv_tickClose
        | with_reducible exact inv_logPanic _ _
        | with_reducible exact inv_throwPanic _
        | with_reducible exact inv_of_fp (PaymentChannelService_fp env) (by decide)
        | with_reducible exact inv_of_fp (PaymentStorage_fp env) (by decide)
        | with_reducible exact inv_of_fp (ServiceMetaData_fp) (by decide)
        | with_reducible refine inv_bind ?_ (fun _ => ?_)
        | exact inv_setComps (Mod.set Field.paymentChannelStateService (by decide) hF _
            (by intro c f hf; cases f <;> first | rfl | exact absurd rfl hf))
        | split

theorem ProviderControlService_fp (env : Env) :
    Fp [Field.organizationMetaData, Field.etcdClient, Field.atomicStorage, Field.paymentStorage, Field.serviceMetadata, Field.blockchain, Field.paymentChannelService, Field.providerControlService] (ProviderControlService env) := by
  intro s
  unfold ProviderControlService
  split
  · exact Mod.refl _ _
  · rw [getComps_bind_apply]
    cases hF : s.comps.providerControlService with
    | some x => exact Mod.refl _ _
    | none =>
      apply inv_run
      repeat' first
        | with_reducible exact inv_pure _
        | with_reducible exact inv_construct _
        | with_reducible exact inv_emit _
        | with_reducible exact inv_getComps
        | with_reducible exact inv_tickClose
        | with_reducible exact inv_logPanic _ _
        | with_reducible exact inv_throwPanic _
        | with_reducible exact inv_of_fp (PaymentChannelService_fp env) (by decide)
        | with_reducible exact inv_of_fp (ServiceMetaData_fp) (by decide)
        | with_reducible exact inv_of_fp (OrganizationMetaData_fp) (by decide)
        | with_reducible refine inv_bind ?_ (fun _ => ?_)
        | exact inv_setComps (Mod.set Field.providerControlService (by decide) hF _
            (by intro c f hf; cases f <;> first | rfl | exact absurd rfl hf))
        | split

theorem Close_fp :
    Fp [] (Close) := by
  intro s
  unfold Close
  apply inv_run
  repeat' first
    | with_reducible exact inv_pure _
    | with_reducible exact inv_construct _
    | with_reducible exact inv_emit _
    | with_reducible exact inv_getComps
    | with_reducible exact inv_tickClose
    | with_reducible exact inv_logPanic _ _
    | with_reducible exact inv_throwPanic _
    | with_reducible refine inv_bind ?_ (fun _ => ?_)
    | split

/-- No method changes a field that is set. -/
theorem runMethod_keep (env : Env) (m : Method) (s : St) (f : Field) (x : f.type)
    (hx : s.comps.get f = some x) : (runMethod env m s).comps.get f = some x := by
  cases m
  · exact ((Close_fp) s).keep f x hx
  · exact ((Blockchain_fp env) s).keep f x hx
  · exact ((ServiceMetaData_fp) s).keep f x hx
  · exact ((OrganizationMetaData_fp) s).keep f x hx
  · exact ((EtcdServer_fp env) s).keep f x hx
  · exact ((EtcdClient_fp env) s).keep f x hx
  · exact ((LockerStorage_fp env) s).keep f x hx
  · exact ((AtomicStorage_fp env) s).keep f x hx
  · exact ((PaymentStorage_fp env) s).keep f x hx
  · exact ((PaymentChannelService_fp env) s).keep f x hx
  · exact ((EscrowPaymentHandler_fp env) s).keep f x hx
  · exact ((FreeCallPaymentHandler_fp env) s).keep f x hx
  · exact ((GrpcInterceptor_fp env) s).keep f x hx
  · exact ((GrpcPaymentValidationInterceptor_fp env) s).keep f x hx
  · exact ((PaymentChannelStateService_fp env) s).keep f x hx
  · exact ((ProviderControlService_fp env) s).keep f x hx
  · exact ((DaemonHeartBeat_fp env) s).keep f x hx
  · exact ((PricingStrategy_fp env) s).keep f x hx
  · exact ((ChannelBroadcast_fp) s).keep f x hx
  · exact ((ConfigurationService_fp) s).keep f x hx

/-! ## What the methods return -/

theorem ret_bind {α β : Type} {m : M α} {f : α → M β} {Q : β → Components → Prop}
    (hf : ∀ a, Ret (f a) Q) : Ret (m >>= f) Q := by
  intro s r s1 h
  simp only [bind_apply] at h
  rcases hms : m s with ⟨a, s2⟩ | ⟨v, s2⟩
  · rw [hms] at h
    exact hf a s2 r s1 h
  · rw [hms] at h
    simp at h

theorem ret_throwPanic {α : Type} {Q : α → Components → Prop} (v : PanicValue) :
    Ret (throwPanic v : M α) Q := by
  intro s r s1 h
  simp at h

theorem ret_logPanic {α : Type} {Q : α → Components → Prop} (err msg : String) :
    Ret (logPanic err msg : M α) Q := by
  intro s r s1 h
  simp at h

theorem ret_set_pure {α : Type} {Q : α → Components → Prop} (g : Components → Components)
    (v : α) (h : ∀ c, Q v (g c)) : Ret (setComps g >>= fun _ => pure v) Q := by
  intro s r s1 hr
  simp only [bind_apply, setComps_apply, pure_apply, Res.ok.injEq] at hr
  obtain ⟨h1, h2⟩ := hr
  subst h1 h2
  exact h s.comps

/-- What `ServiceMetaData` returns is what it leaves in its field. -/
theorem ServiceMetaData_ret :
    Ret (ServiceMetaData) (fun r c => c.serviceMetadata = some r) := by
  intro s
  unfold ServiceMetaData
  rw [getComps_bind_apply]
  cases hF : s.comps.serviceMetadata with
  | some x =>
    intro r s1 h
    simp only [pure_apply, Res.ok.injEq] at h
    obtain ⟨h1, h2⟩ := h
    subst h1 h2
    exact hF
  | none =>
    dsimp only
    refine (show Ret _ (fun r c => c.serviceMetadata = some r) from ?_) s
    repeat' first
      | with_reducible exact ret_throwPanic _
      | with_reducible exact ret_logPanic _ _
      | with_reducible exact ret_set_pure _ _ (fun _ => rfl)
      | with_reducible refine ret_bind (fun _ => ?_)
      | split

/-- What `OrganizationMetaData` returns is what it leaves in its field. -/
theorem OrganizationMetaData_ret :
    Ret (OrganizationMetaData) (fun r c => c.organizationMetaData = some r) := by
  intro s
  unfold OrganizationMetaData
  rw [getComps_bind_apply]
  cases hF : s.comps.organizationMetaData with
  | some x =>
    intro r s1 h
    simp only [pure_apply, Res.ok.injEq] at h
    obtain ⟨h1, h2⟩ := h
    subst h1 h2
    exact hF
  | none =>
    dsimp only
    refine (show Ret _ (fun r c => c.organizationMetaData = some r) from ?_) s
    repeat' first
      | with_reducible exact ret_throwPanic _
      | with_reducible exact ret_logPanic _ _
      | with_reducible exact ret_set_pure _ _ (fun _ => rfl)
      | with_reducible refine ret_bind (fun _ => ?_)
      | split

/-- What `Blockchain` returns is what it leaves in its field. -/
theorem Blockchain_ret (env : Env) :
    Ret (Blockchain env) (fun r c => c.blockchain = some r) := by
  intro s
  unfold Blockchain
  rw [getComps_bind_apply]
  cases hF : s.comps.blockchain with
  | some x =>
    intro r s1 h
    simp only [pure_apply, Res.ok.injEq] at h
    obtain ⟨h1, h2⟩ := h
    subst h1 h2
    exact hF
  | none =>
    dsimp only
    refine (show Ret _ (fun r c => c.blockchain = some r) from ?_) s
    repeat' first
      | with_reducible exact ret_throwPanic _
      | with_reducible exact ret_logPanic _ _
      | with_reducible exact ret_set_pure _ _ (fun _ => rfl)
      | with_reducible refine ret_bind (fun _ => ?_)
      | split

/-- What `EtcdClient` returns is what it leaves in its field. -/
theorem EtcdClient_ret (env : Env) :
    Ret (EtcdClient env) (fun r c => c.etcdClient = some r) := by
  intro s
  unfold EtcdClient
  rw [getComps_bind_apply]
  cases hF : s.comps.etcdClient with
  | some x =>
    intro r s1 h
    simp only [pure_apply, Res.ok.injEq] at h
    obtain ⟨h1, h2⟩ := h
    subst h1 h2
    exact hF
  | none =>
    dsimp only
    refine (show Ret _ (fun r c => c.etcdClient = some r) from ?_) s
    repeat' first
      | with_reducible exact ret_throwPanic _
      | with_reducible exact ret_logPanic _ _
      | with_reducible exact ret_set_pure _ _ (fun _ => rfl)
      | with_reducible refine ret_bind (fun _ => ?_)
      | split

/-- What `AtomicStorage` returns is what it leaves in its field. -/
theorem AtomicStorage_ret (env : Env) :
    Ret (AtomicStorage env) (fun r c => c.atomicStorage = some r) := by
  intro s
  unfold AtomicStorage
  rw [getComps_bind_apply]
  cases hF : s.comps.atomicStorage with
  | some x =>
    intro r s1 h
    simp only [pure_apply, Res.ok.injEq] at h
    obtain ⟨h1, h2⟩ := h
    subst h1 h2
    exact hF
  | none =>
    dsimp only
    refine (show Ret _ (fun r c => c.atomicStorage = some r) from ?_) s
    repeat' first
      | with_reducible exact ret_throwPanic _
      | with_reducible exact ret_logPanic _ _
      | with_reducible exact ret_set_pure _ _ (fun _ => rfl)
      | with_reducible refine ret_bind (fun _ => ?_)
      | split

/-- What `LockerStorage` returns is what it leaves in its field. -/
theorem LockerStorage_ret (env : Env) :
    Ret (LockerStorage env) (fun r c => c.etcdLockerStorage = some r) := by
  intro s
  unfold LockerStorage
  rw [getComps_bind_apply]
  cases hF : s.comps.etcdLockerStorage with
  | some x =>
    intro r s1 h
    simp only [pure_apply, Res.ok.injEq] at h
    obtain ⟨h1, h2⟩ := h
    subst h1 h2
    exact hF
  | none =>
    dsimp only
    refine (show Ret _ (fun r c => c.etcdLockerStorage = some r) from ?_) s
    repeat' first
      | with_reducible exact ret_throwPanic _
      | with_reducible exact ret_logPanic _ _
      | with_reducible exact ret_set_pure _ _ (fun _ => rfl)
      | with_reducible refine ret_bind (fun _ => ?_)
      | split

/-- What `PaymentStorage` returns is what it leaves in its field. -/
theorem PaymentStorage_ret (env : Env) :
    Ret (PaymentStorage env) (fun r c => c.paymentStorage = some r) := by
  intro s
  unfold PaymentStorage
  rw [getComps_bind_apply]
  cases hF : s.comps.paymentStorage with
  | some x =>
    intro r s1 h
    simp only [pure_apply, Res.ok.injEq] at h
    obtain ⟨h1, h2⟩ := h
    subst h1 h2
    exact hF
  | none =>
    dsimp only
    refine (show Ret _ (fun r c => c.paymentStorage = some r) from ?_) s
    repeat' first
      | with_reducible exact ret_throwPanic _
      | with_reducible exact ret_logPanic _ _
      | with_reducible exact ret_set_pure _ _ (fun _ => rfl)
      | with_reducible refine ret_bind (fun _ => ?_)
      | split

/-- What `PaymentChannelService` returns is what it leaves in its field. -/
theorem PaymentChannelService_ret (env : Env) :
    Ret (PaymentChannelService env) (fun r c => c.paymentChannelService = some r) := by
  intro s
  unfold PaymentChannelService
  rw [getComps_bind_apply]
  cases hF : s.comps.paymentChannelService with
  | some x =>
    intro r s1 h
    simp only [pure_apply, Res.ok.injEq] at h
    obtain ⟨h1, h2⟩ := h
    subst h1 h2
    exact hF
  | none =>
    dsimp only
    refine (show Ret _ (fun r c => c.paymentChannelService = some r) from ?_) s
    repeat' first
      | with_reducible exact ret_throwPanic _
      | with_reducible exact ret_logPanic _ _
      | with_reducible exact ret_set_pure _ _ (fun _ => rfl)
      | with_reducible refine ret_bind (fun _ => ?_)
      | split

/-- What `EscrowPaymentHandler` returns is what it leaves in its field. -/
theorem EscrowPaymentHandler_ret (env : Env) :
    Ret (EscrowPaymentHandler env) (fun r c => c.escrowPaymentHandler = some r) := by
  intro s
  unfold EscrowPaymentHandler
  rw [getComps_bind_apply]
  cases hF : s.comps.escrowPaymentHandler with
  | some x =>
    intro r s1 h
    simp only [pure_apply, Res.ok.injEq] at h
    obtain ⟨h1, h2⟩ := h
    subst h1 h2
    exact hF
  | none =>
    dsimp only
    refine (show Ret _ (fun r c => c.escrowPaymentHandler = some r) from ?_) s
    repeat' first
      | with_reducible exact ret_throwPanic _
      | with_reducible exact ret_logPanic _ _
      | with_reducible exact ret_set_pure _ _ (fun _ => rfl)
      | with_reducible refine ret_bind (fun _ => ?_)
      | split

/-- What `FreeCallPaymentHandler` returns is what it leaves in its field. -/
theorem FreeCallPaymentHandler_ret (env : Env) :
    Ret (FreeCallPaymentHandler env) (fun r c => c.freeCallPaymentHandler = some r) := by
  intro s
  unfold FreeCallPaymentHandler
  rw [getComps_bind_apply]
  cases hF : s.comps.freeCallPaymentHandler with
  | some x =>
    intro r s1 h
    simp only [pure_apply, Res.ok.injEq] at h
    obtain ⟨h1, h2⟩ := h
    subst h1 h2
    exact hF
  | none =>
    dsimp only
    refine (show Ret _ (fun r c => c.freeCallPaymentHandler = some r) from ?_) s
    repeat' first
      | with_reducible exact ret_throwPanic _
      | with_reducible exact ret_logPanic _ _
      | with_reducible exact ret_set_pure _ _ (fun _ => rfl)
      | with_reducible refine ret_bind (fun _ => ?_)
      | split

/-- What `ChannelBroadcast` returns is what it leaves in its field. -/
theorem ChannelBroadcast_ret :
    Ret (ChannelBroadcast) (fun r c => c.configurationBroadcaster = some r) := by
  intro s
  unfold ChannelBroadcast
  rw [getComps_bind_apply]
  cases hF : s.comps.configurationBroadcaster with
  | some x =>
    intro r s1 h
    simp only [pure_apply, Res.ok.injEq] at h
    obtain ⟨h1, h2⟩ := h
    subst h1 h2
    exact hF
  | none =>
    dsimp only
    refine (show Ret _ (fun r c => c.configurationBroadcaster = some r) from ?_) s
    repeat' first
      | with_reducible exact ret_throwPanic _
      | with_reducible exact ret_logPanic _ _
      | with_reducible exact ret_set_pure _ _ (fun _ => rfl)
      | with_reducible refine ret_bind (fun _ => ?_)
      | split

/-- What `ConfigurationService` returns is what it leaves in its field. -/
theorem ConfigurationService_ret :
    Ret (ConfigurationService) (fun r c => c.configurationService = some r) := by
  intro s
  unfold ConfigurationService
  rw [getComps_bind_apply]
  cases hF : s.comps.configurationService with
  | some x =>
    intro r s1 h
    simp only [pure_apply, Res.ok.injEq] at h
    obtain ⟨h1, h2⟩ := h
    subst h1 h2
    exact hF
  | none =>
    dsimp only
    refine (show Ret _ (fun r c => c.configurationService = some r) from ?_) s
    repeat' first
      | with_reducible exact ret_throwPanic _
      | with_reducible exact ret_logPanic _ _
      | with_reducible exact ret_set_pure _ _ (fun _ => rfl)
      | with_reducible refine ret_bind (fun _ => ?_)
      | split

/-- What `DaemonHeartBeat` returns is what it leaves in its field. -/
theorem DaemonHeartBeat_ret (env : Env) :
    Ret (DaemonHeartBeat env) (fun r c => c.daemonHeartbeat = some r) := by
  intro s
  unfold DaemonHeartBeat
  rw [getComps_bind_apply]
  cases hF : s.comps.daemonHeartbeat with
  | some x =>
    intro r s1 h
    simp only [pure_apply, Res.ok.injEq] at h
    obtain ⟨h1, h2⟩ := h
    subst h1 h2
    exact hF
  | none =>
    dsimp only
    refine (show Ret _ (fun r c => c.daemonHeartbeat = some r) from ?_) s
    repeat' first
      | with_reducible exact ret_throwPanic _
      | with_reducible exact ret_logPanic _ _
      | with_reducible exact ret_set_pure _ _ (fun _ => rfl)
      | with_reducible refine ret_bind (fun _ => ?_)
      | split

/-- What `GrpcInterceptor` returns is what it leaves in its field. -/
theorem GrpcInterceptor_ret (env : Env) :
    Ret (GrpcInterceptor env) (fun r c => c.grpcInterceptor = some r) := by
  intro s
  unfold GrpcInterceptor
  rw [getComps_bind_apply]
  cases hF : s.comps.grpcInterceptor with
  | some x =>
    intro r s1 h
    simp only [pure_apply, Res.ok.injEq] at h
    obtain ⟨h1, h2⟩ := h
    subst h1 h2
    exact hF
  | none =>
    dsimp only
    refine (show Ret _ (fun r c => c.grpcInterceptor = some r) from ?_) s
    repeat' first
      | with_reducible exact ret_throwPanic _
      | with_reducible exact ret_logPanic _ _
      | with_reducible exact ret_set_pure _ _ (fun _ => rfl)
      | with_reducible refine ret_bind (fun _ => ?_)
      | split

/-! ## The storage invariant -/

/-- A property of the three storage fields follows them. -/
theorem inv_of_fp_storage {α : Type} {W : List Field} {m : M α} {P : Components → Prop}
    (hP : ∀ c1 c2 : Components, c2.atomicStorage = c1.atomicStorage →
      c2.paymentStorage = c1.paymentStorage →
      c2.paymentChannelService = c1.paymentChannelService → P c1 → P c2)
    (hfp : Fp W m) (h1 : Field.atomicStorage ∉ W) (h2 : Field.paymentStorage ∉ W)
    (h3 : Field.paymentChannelService ∉ W) : Inv P m := by
  intro s hs
  have h := hfp s
  exact hP _ _ (h.same Field.atomicStorage h1) (h.same Field.paymentStorage h2)
    (h.same Field.paymentChannelService h3) hs

theorem SharedStorage.congr (c1 c2 : Components)
    (h1 : c2.atomicStorage = c1.atomicStorage) (h2 : c2.paymentStorage = c1.paymentStorage)
    (h3 : c2.paymentChannelService = c1.paymentChannelService) (h : SharedStorage c1) :
    SharedStorage c2 := by
  unfold SharedStorage at *
  rw [h1, h2, h3]
  exact h

/-- The receiver holds the atomic storage `st` and the storage invariant. -/
theorem AtomicStorage_cached (env : Env) (s : St) (st : escrow.AtomicStorage)
    (h : s.comps.atomicStorage = some st) : AtomicStorage env s = .ok st s := by
  simp [AtomicStorage, h]

theorem AtomicStorage_shared (env : Env) : Inv SharedStorage (AtomicStorage env) := by
  intro s hs
  unfold AtomicStorage
  rw [getComps_bind_apply]
  cases hF : s.comps.atomicStorage with
  | some x => exact hs
  | none =>
    dsimp only
    have hP : (fun c : Components => c.paymentStorage = none ∧ c.paymentChannelService = none)
        s.comps := by
      constructor
      · cases hps : s.comps.paymentStorage with
        | none => rfl
        | some ps =>
          have := hs.1 ps hps
          rw [hF] at this
          exact absurd this (by simp)
      · cases hsv : s.comps.paymentChannelService with
        | none => rfl
        | some svc =>
          have := (hs.2 svc hsv).1
          rw [hF] at this
          exact absurd this (by simp)
    have key : Inv (fun c : Components => c.paymentStorage = none ∧ c.paymentChannelService = none)
        (if env.storageType = "etcd" then do
            let client ← EtcdClient env
            setComps (fun c => { c with atomicStorage := some (escrow.AtomicStorage.etcdClient client) })
            return escrow.AtomicStorage.etcdClient client
          else do
            let a ← construct Constructor.NewMemStorage
            setComps (fun c => { c with atomicStorage := some (escrow.AtomicStorage.memStorage a) })
            return escrow.AtomicStorage.memStorage a) := by
      have hEC : Inv (fun c : Components =>
          c.paymentStorage = none ∧ c.paymentChannelService = none) (EtcdClient env) :=
        inv_of_fp_storage (fun c1 c2 _ h2 h3 h => by rw [h2, h3]; exact h) (EtcdClient_fp env)
          (by decide) (by decide) (by decide)
      repeat' first
        | with_reducible exact inv_pure _
        | with_reducible exact inv_construct _
        | with_reducible exact hEC
        | with_reducible refine inv_bind ?_ (fun _ => ?_)
        | exact inv_setComps (fun c hc => hc)
        | split
    have h := key s hP
    constructor
    · intro ps hps
      rw [h.1] at hps
      exact absurd hps (by simp)
    · intro svc hsv
      rw [h.2] at hsv
      exact absurd hsv (by simp)


/-- The payment storage is built over the atomic storage of the receiver. -/
theorem PaymentStorage_spec (env : Env) (s : St) (hs : SharedStorage s.comps) :
    SharedStorage (PaymentStorage env s).state.comps ∧
    ∀ ps s1, PaymentStorage env s = .ok ps s1 → s1.comps.atomicStorage = some ps.storage := by
  unfold PaymentStorage
  rw [getComps_bind_apply]
  cases hF : s.comps.paymentStorage with
  | some x =>
    refine ⟨hs, ?_⟩
    intro ps s1 h
    simp only [pure_apply, Res.ok.injEq] at h
    obtain ⟨h1, h2⟩ := h
    subst h1 h2
    exact hs.1 x hF
  | none =>
    dsimp only
    rw [bind_apply]
    have h1 := AtomicStorage_shared env s hs
    rcases hA : AtomicStorage env s with ⟨st, s1⟩ | ⟨v, s1⟩
    · rw [hA] at h1
      have h2 := AtomicStorage_ret env s st s1 hA
      simp only [Res.state] at h1
      simp only [bind_apply, construct_apply, setComps_apply, pure_apply, Res.state]
      refine ⟨⟨?_, ?_⟩, ?_⟩
      · intro ps hps
        simp only [Option.some.injEq] at hps
        subst hps
        exact h2
      · exact h1.2
      · intro ps s2 h
        simp only [Res.ok.injEq] at h
        obtain ⟨h3, h4⟩ := h
        subst h3 h4
        exact h2
    · rw [hA] at h1
      simp only [Res.state] at h1
      refine ⟨h1, ?_⟩
      intro ps s2 h
      simp at h

theorem tri_bind {α β : Type} {P : Components → Prop} {m : M α} {f : α → M β}
    {φ1 : α → Prop} {φ : β → Prop}
    (hm : Tri P m φ1) (hf : ∀ a, φ1 a → Tri P (f a) φ) : Tri P (m >>= f) φ := by
  intro s hs
  have h1 := hm s hs
  simp only [bind_apply]
  rcases hms : m s with ⟨a, s1⟩ | ⟨v, s1⟩
  · rw [hms] at h1
    exact hf a h1.2 s1 h1.1
  · rw [hms] at h1
    exact h1

theorem tri_pure {α : Type} {P : Components → Prop} {φ : α → Prop} (a : α) (h : φ a) :
    Tri P (pure a : M α) φ :=
  fun _ hs => ⟨hs, h⟩

theorem tri_of_inv {α : Type} {P : Components → Prop} {m : M α} (h : Inv P m) :
    Tri P m (fun _ => True) := by
  intro s hs
  have h1 := h s hs
  rcases hms : m s with ⟨a, s1⟩ | ⟨v, s1⟩
  · rw [hms] at h1
    exact ⟨h1, trivial⟩
  · rw [hms] at h1
    exact h1

theorem inv_of_tri {α : Type} {P : Components → Prop} {m : M α} {φ : α → Prop}
    (h : Tri P m φ) : Inv P m := by
  intro s hs
  have h1 := h s hs
  rcases hms : m s with ⟨a, s1⟩ | ⟨v, s1⟩
  · rw [hms] at h1
    exact h1.1
  · rw [hms] at h1
    exact h1

theorem tri_run {α : Type} (P : Components → Prop) {m : M α}
    (h : Tri P m (fun _ => True)) (s : St) (hs : P s.comps) : P (m s).state.comps :=
  inv_of_tri h s hs

/-- The receiver holds the atomic storage `st` and satisfies the invariant. -/
theorem holding_congr (st : escrow.AtomicStorage) (c1 c2 : Components)
    (h1 : c2.atomicStorage = c1.atomicStorage) (h2 : c2.paymentStorage = c1.paymentStorage)
    (h3 : c2.paymentChannelService = c1.paymentChannelService)
    (h : c1.atomicStorage = some st ∧ SharedStorage c1) :
    c2.atomicStorage = some st ∧ SharedStorage c2 :=
  ⟨h1 ▸ h.1, SharedStorage.congr c1 c2 h1 h2 h3 h.2⟩

theorem AtomicStorage_holding (env : Env) (st : escrow.AtomicStorage) :
    Tri (fun c => c.atomicStorage = some st ∧ SharedStorage c) (AtomicStorage env)
      (fun r => r = st) := by
  intro s hs
  rw [AtomicStorage_cached env s st hs.1]
  exact ⟨hs, rfl⟩

theorem PaymentStorage_holding (env : Env) (st : escrow.AtomicStorage) :
    Tri (fun c => c.atomicStorage = some st ∧ SharedStorage c) (PaymentStorage env)
      (fun ps => ps.storage = st) := by
  intro s hs
  have h1 := PaymentStorage_spec env s hs.2
  have h2 := (PaymentStorage_fp env s).keep Field.atomicStorage st hs.1
  rcases hP : PaymentStorage env s with ⟨ps, s1⟩ | ⟨v, s1⟩
  · rw [hP] at h1 h2
    simp only [Res.state] at h1 h2
    have h3 := h1.2 ps s1 rfl
    have h4 : s1.comps.atomicStorage = some st := h2
    refine ⟨⟨h4, h1.1⟩, ?_⟩
    rw [h4] at h3
    simp only [Option.some.injEq] at h3
    exact h3.symm
  · rw [hP] at h1 h2
    simp only [Res.state] at h1 h2
    exact ⟨h2, h1.1⟩

theorem PaymentChannelService_shared (env : Env) :
    Inv SharedStorage (PaymentChannelService env) := by
  intro s hs
  unfold PaymentChannelService
  rw [getComps_bind_apply]
  cases hF : s.comps.paymentChannelService with
  | some x => exact hs
  | none =>
    dsimp only
    rw [bind_apply]
    have h1 := AtomicStorage_shared env s hs
    rcases hA : AtomicStorage env s with ⟨st, s1⟩ | ⟨v, s1⟩
    · rw [hA] at h1
      have h2 := AtomicStorage_ret env s st s1 hA
      simp only [Res.state] at h1
      dsimp only
      have hSM : Inv (fun c => c.atomicStorage = some st ∧ SharedStorage c) ServiceMetaData :=
        inv_of_fp_storage (holding_congr st) ServiceMetaData_fp
          (by decide) (by decide) (by decide)
      have hBC : Inv (fun c => c.atomicStorage = some st ∧ SharedStorage c) (Blockchain env) :=
        inv_of_fp_storage (holding_congr st) (Blockchain_fp env)
          (by decide) (by decide) (by decide)
      have hOM : Inv (fun c => c.atomicStorage = some st ∧ SharedStorage c)
          OrganizationMetaData :=
        inv_of_fp_storage (holding_congr st) OrganizationMetaData_fp
          (by decide) (by decide) (by decide)
      refine (tri_run (fun c => c.atomicStorage = some st ∧ SharedStorage c) ?_ s1 ⟨h2, h1⟩).2
      refine tri_bind (tri_of_inv hSM) (fun m1 _ => ?_)
      refine tri_bind (tri_of_inv (inv_construct _)) (fun a1 _ => ?_)
      refine tri_bind (PaymentStorage_holding env st) (fun ps hps => ?_)
      refine tri_bind (tri_of_inv hBC) (fun p1 _ => ?_)
      refine tri_bind (tri_of_inv hOM) (fun o1 _ => ?_)
      refine tri_bind (tri_of_inv (inv_construct _)) (fun a2 _ => ?_)
      refine tri_bind (AtomicStorage_holding env st) (fun st2 hst2 => ?_)
      refine tri_bind (tri_of_inv hSM) (fun m2 _ => ?_)
      refine tri_bind (tri_of_inv (inv_construct _)) (fun a3 _ => ?_)
      refine tri_bind (tri_of_inv hBC) (fun p2 _ => ?_)
      refine tri_bind (tri_of_inv hOM) (fun o2 _ => ?_)
      refine tri_bind (tri_of_inv (inv_construct _)) (fun a4 _ => ?_)
      refine tri_bind (tri_of_inv (inv_construct _)) (fun a _ => ?_)
      refine tri_bind (tri_of_inv (inv_setComps ?_)) (fun _ _ => tri_pure _ trivial)
      intro c hc
      refine ⟨hc.1, hc.2.1, ?_⟩
      intro svc hsvc
      simp only [Option.some.injEq] at hsvc
      subst hsvc
      exact ⟨hc.1, hps, hst2⟩
    · rw [hA] at h1
      exact h1

theorem Close_shared : Inv SharedStorage (Close) :=
  inv_of_fp_storage SharedStorage.congr (Close_fp) (by decide) (by decide) (by decide)

theorem Blockchain_shared (env : Env) : Inv SharedStorage (Blockchain env) :=
  inv_of_fp_storage SharedStorage.congr (Blockchain_fp env) (by decide) (by decide) (by decide)

theorem ServiceMetaData_shared : Inv SharedStorage (ServiceMetaData) :=
  inv_of_fp_storage SharedStorage.congr (ServiceMetaData_fp) (by decide) (by decide) (by decide)

theorem OrganizationMetaData_shared : Inv SharedStorage (OrganizationMetaData) :=
  inv_of_fp_storage SharedStorage.congr (OrganizationMetaData_fp) (by decide) (by decide) (by decide)

theorem EtcdServer_shared (env : Env) : Inv SharedStorage (EtcdServer env) :=
  inv_of_fp_storage SharedStorage.congr (EtcdServer_fp env) (by decide) (by decide) (by decide)

theorem EtcdClient_shared (env : Env) : Inv SharedStorage (EtcdClient env) :=
  inv_of_fp_storage SharedStorage.congr (EtcdClient_fp env) (by decide) (by decide) (by decide)

theorem PricingStrategy_shared (env : Env) : Inv SharedStorage (PricingStrategy env) :=
  inv_of_fp_storage SharedStorage.congr (PricingStrategy_fp env) (by decide) (by decide) (by decide)

theorem FreeCallPaymentHandler_shared (env : Env) : Inv SharedStorage (FreeCallPaymentHandler env) :=
  inv_of_fp_storage SharedStorage.congr (FreeCallPaymentHandler_fp env) (by decide) (by decide) (by decide)

theorem ChannelBroadcast_shared : Inv SharedStorage (ChannelBroadcast) :=
  inv_of_fp_storage SharedStorage.congr (ChannelBroadcast_fp) (by decide) (by decide) (by decide)

theorem ConfigurationService_shared : Inv SharedStorage (ConfigurationService) :=
  inv_of_fp_storage SharedStorage.congr (ConfigurationService_fp) (by decide) (by decide) (by decide)

theorem DaemonHeartBeat_shared (env : Env) : Inv SharedStorage (DaemonHeartBeat env) :=
  inv_of_fp_storage SharedStorage.congr (DaemonHeartBeat_fp env) (by decide) (by decide) (by decide)

theorem PaymentStorage_shared (env : Env) : Inv SharedStorage (PaymentStorage env) :=
  fun s hs => (PaymentStorage_spec env s hs).1

theorem LockerStorage_shared (env : Env) : Inv SharedStorage (LockerStorage env) := by
  unfold LockerStorage
  repeat' first
    | with_reducible exact inv_pure _
    | with_reducible exact inv_construct _
    | with_reducible exact inv_emit _
    | with_reducible exact inv_getComps
    | with_reducible exact AtomicStorage_shared env
    | with_reducible exact ServiceMetaData_shared
    | with_reducible refine inv_bind ?_ (fun _ => ?_)
    | exact inv_setComps (fun c hc => hc)
    | split

theorem EscrowPaymentHandler_shared (env : Env) : Inv SharedStorage (EscrowPaymentHandler env) := by
  unfold EscrowPaymentHandler
  repeat' first
    | with_reducible exact inv_pure _
    | with_reducible exact inv_construct _
    | with_reducible exact inv_emit _
    | with_reducible exact inv_getComps
    | with_reducible exact PaymentChannelService_shared env
    | with_reducible exact Blockchain_shared env
    | with_reducible exact PricingStrategy_shared env
    | with_reducible refine inv_bind ?_ (fun _ => ?_)
    | exact inv_setComps (fun c hc => hc)
    | split

theorem GrpcPaymentValidationInterceptor_shared (env : Env) : Inv SharedStorage (GrpcPaymentValidationInterceptor env) := by
  unfold GrpcPaymentValidationInterceptor
  repeat' first
    | with_reducible exact inv_pure _
    | with_reducible exact inv_construct _
    | with_reducible exact inv_emit _
    | with_reducible exact inv_getComps
    | with_reducible exact Blockchain_shared env
    | with_reducible exact EscrowPaymentHandler_shared env
    | with_reducible exact FreeCallPaymentHandler_shared env
    | with_reducible refine inv_bind ?_ (fun _ => ?_)
    | exact inv_setComps (fun c hc => hc)
    | split

theorem GrpcInterceptor_shared (env : Env) : Inv SharedStorage (GrpcInterceptor env) := by
  unfold GrpcInterceptor
  repeat' first
    | with_reducible exact inv_pure _
    | with_reducible exact inv_construct _
    | with_reducible exact inv_emit _
    | with_reducible exact inv_getComps
    | with_reducible exact OrganizationMetaData_shared
    | with_reducible exact Blockchain_shared env
    | with_reducible exact ChannelBroadcast_shared
    | with_reducible exact GrpcPaymentValidationInterceptor_shared env
    | with_reducible refine inv_bind ?_ (fun _ => ?_)
    | exact inv_setComps (fun c hc => hc)
    | split

theorem PaymentChannelStateService_shared (env : Env) : Inv SharedStorage (PaymentChannelStateService env) := by
  unfold PaymentChannelStateService
  repeat' first
    | with_reducible exact inv_pure _
    | with_reducible exact inv_construct _
    | with_reducible exact inv_emit _
    | with_reducible exact inv_getComps
    | with_reducible exact PaymentChannelService_shared env
    | with_reducible exact PaymentStorage_shared env
    | with_reducible exact ServiceMetaData_shared
    | with_reducible refine inv_bind ?_ (fun _ => ?_)
    | exact inv_setComps (fun c hc => hc)
    | split

theorem ProviderControlService_shared (env : Env) : Inv SharedStorage (ProviderControlService env) := by
  unfold ProviderControlService
  repeat' first
    | with_reducible exact inv_pure _
    | with_reducible exact inv_construct _
    | with_reducible exact inv_emit _
    | with_reducible exact inv_getComps
    | with_reducible exact PaymentChannelService_shared env
    | with_reducible exact ServiceMetaData_shared
    | with_reducible exact OrganizationMetaData_shared
    | with_reducible refine inv_bind ?_ (fun _ => ?_)
    | exact inv_setComps (fun c hc => hc)
    | split

/-- Every method keeps the storage invariant. -/
theorem runMethod_shared (env : Env) (m : Method) (s : St) (hs : SharedStorage s.comps) :
    SharedStorage (runMethod env m s).comps := by
  cases m
  · exact (Close_shared) s hs
  · exact (Blockchain_shared env) s hs
  · exact (ServiceMetaData_shared) s hs
  · exact (OrganizationMetaData_shared) s hs
  · exact (EtcdServer_shared env) s hs
  · exact (EtcdClient_shared env) s hs
  · exact (LockerStorage_shared env) s hs
  · exact (AtomicStorage_shared env) s hs
  · exact (PaymentStorage_shared env) s hs
  · exact (PaymentChannelService_shared env) s hs
  · exact (EscrowPaymentHandler_shared env) s hs
  · exact (FreeCallPaymentHandler_shared env) s hs
  · exact (GrpcInterceptor_shared env) s hs
  · exact (GrpcPaymentValidationInterceptor_shared env) s hs
  · exact (PaymentChannelStateService_shared env) s hs
  · exact (ProviderControlService_shared env) s hs
  · exact (DaemonHeartBeat_shared env) s hs
  · exact (PricingStrategy_shared env) s hs
  · exact (ChannelBroadcast_shared) s hs
  · exact (ConfigurationService_shared) s hs

/-- The storage invariant holds in every reachable state. -/
theorem reachable_shared (s : St) (h : Reachable s) : SharedStorage s.comps := by
  induction h with
  | init next trace closeCalls =>
    constructor
    · intro ps hps
      simp at hps
    · intro svc hsvc
      simp at hsvc
  | call env m s _ ih => exact runMethod_shared env m s ih

/-- A field that is set keeps its value in every later state. -/
theorem later_keep (s s2 : St) (h : Later s s2) (f : Field) (x : f.type)
    (hx : s.comps.get f = some x) : s2.comps.get f = some x := by
  induction h with
  | refl => exact hx
  | call env m s1 _ ih => exact runMethod_keep env m s1 f x ih

/-- The states after a reachable state are reachable. -/
theorem later_reachable (s s2 : St) (hs : Reachable s) (h : Later s s2) : Reachable s2 := by
  induction h with
  | refl => exact hs
  | call env m s1 _ ih => exact Reachable.call env m s1 ih


theorem PaymentChannelService_cached (env : Env) (s : St) (svc : escrow.PaymentChannelService)
    (h : s.comps.paymentChannelService = some svc) :
    PaymentChannelService env s = .ok svc s := by
  simp [PaymentChannelService, h]

/-- C8: in every state reached from `InitComponents` by calls of methods, once
`AtomicStorage` has returned a storage, every later call returns that storage
and leaves the state alone, whatever storage type is configured then and
whatever methods were called in between; the channel storage, the payment
storage and the locker of the service that `PaymentChannelService` returns are
built over the one atomic storage the receiver holds afterwards; and once
`PaymentChannelService` has returned a service, every later call returns it. -/
theorem storage_backend_chosen_once_and_shared (s : St) (hs : Reachable s) :
    (∀ env a s1, AtomicStorage env s = .ok a s1 →
      ∀ s2, Later s1 s2 → ∀ env2, AtomicStorage env2 s2 = .ok a s2) ∧
    (∀ env svc s1, PaymentChannelService env s = .ok svc s1 →
      ∃ a, s1.comps.atomicStorage = some a ∧
        svc.storage.storage = a ∧ svc.paymentStorage.storage = a ∧ svc.locker.storage = a ∧
        ∀ s2, Later s1 s2 → ∀ env2, AtomicStorage env2 s2 = .ok a s2) ∧
    (∀ env svc s1, PaymentChannelService env s = .ok svc s1 →
      ∀ s2, Later s1 s2 → ∀ env2, PaymentChannelService env2 s2 = .ok svc s2) := by
  refine ⟨?_, ?_, ?_⟩
  · intro env a s1 h s2 hl env2
    have h1 := AtomicStorage_ret env s a s1 h
    exact AtomicStorage_cached env2 s2 a (later_keep s1 s2 hl Field.atomicStorage a h1)
  · intro env svc s1 h
    have h1 := PaymentChannelService_ret env s svc s1 h
    have h2 := PaymentChannelService_shared env s (reachable_shared s hs)
    rw [h] at h2
    simp only [Res.state] at h2
    obtain ⟨h3, h4, h5⟩ := h2.2 svc h1
    refine ⟨svc.storage.storage, h3, rfl, h4, h5, ?_⟩
    intro s2 hl env2
    exact AtomicStorage_cached env2 s2 _ (later_keep s1 s2 hl Field.atomicStorage _ h3)
  · intro env svc s1 h s2 hl env2
    have h1 := PaymentChannelService_ret env s svc s1 h
    exact PaymentChannelService_cached env2 s2 svc
      (later_keep s1 s2 hl Field.paymentChannelService svc h1)

/-- C8 on an empty receiver with in-memory storage: the service is built over the
storage at address 0, and afterwards, with the storage type changed to "etcd",
`AtomicStorage` still returns that storage and `PaymentChannelService` that
service. -/
theorem storage_backend_chosen_once_and_shared_witness :
    Reachable emptyState ∧
    PaymentChannelService (sampleEnv "" true) emptyState
      = .ok sampleService (PaymentChannelService (sampleEnv "" true) emptyState).state ∧
    (PaymentChannelService (sampleEnv "" true) emptyState).state.comps.atomicStorage
      = some (escrow.AtomicStorage.memStorage 0) ∧
    AtomicStorage (sampleEnv "etcd" true)
        (PaymentChannelService (sampleEnv "" true) emptyState).state
      = .ok (escrow.AtomicStorage.memStorage 0)
        (PaymentChannelService (sampleEnv "" true) emptyState).state ∧
    PaymentChannelService (sampleEnv "etcd" false)
        (PaymentChannelService (sampleEnv "" true) emptyState).state
      = .ok sampleService (PaymentChannelService (sampleEnv "" true) emptyState).state := by
  have h := storage_backend_chosen_once_and_shared emptyState (Reachable.init 0 [] 0)
  have hr : PaymentChannelService (sampleEnv "" true) emptyState
      = .ok sampleService (PaymentChannelService (sampleEnv "" true) emptyState).state := rfl
  obtain ⟨a, ha, h1, _, _, h4⟩ := h.2.1 (sampleEnv "" true) sampleService _ hr
  have ha0 : a = escrow.AtomicStorage.memStorage 0 := h1.symm
  subst ha0
  exact ⟨Reachable.init 0 [] 0, hr, ha, h4 _ (Later.refl) _,
    h.2.2 (sampleEnv "" true) sampleService _ hr _ (Later.refl) _⟩

/-! ## The payment validation interceptor and the interceptor chain -/

/-- The flag `Blockchain().Enabled()` reports is `blockchainEnabled`, and
`Blockchain` panics exactly when there is none. -/
theorem Blockchain_enabled (env : Env) (s : St) :
    match Blockchain env s with
    | .ok p _ => blockchainEnabled env s.comps = some p.enabled
    | .panic _ _ => blockchainEnabled env s.comps = none := by
  unfold Blockchain blockchainEnabled ServiceMetaData
  simp only [bind_apply, getComps_apply]
  cases hb : s.comps.blockchain with
  | some p => simp
  | none =>
    cases hm : s.comps.serviceMetadata <;> cases hn : env.newProcessor <;> simp [hm]

/-- The helper `blockchainEnabled` is the flag of the processor that `Blockchain`
returns. -/
theorem blockchainEnabled_iff (env : Env) (s : St) (e : Bool) :
    blockchainEnabled env s.comps = some e ↔
      ∃ p s0, Blockchain env s = .ok p s0 ∧ p.enabled = e := by
  have h := Blockchain_enabled env s
  rcases hB : Blockchain env s with ⟨p, s1⟩ | ⟨v, s1⟩
  · rw [hB] at h
    dsimp only at h
    rw [h]
    constructor
    · intro he
      exact ⟨p, s1, rfl, by simpa using he⟩
    · rintro ⟨p2, s2, heq, he⟩
      simp only [Res.ok.injEq] at heq
      rw [heq.1, he]
  · rw [hB] at h
    dsimp only at h
    rw [h]
    constructor
    · intro he
      simp at he
    · rintro ⟨p2, s2, heq, _⟩
      simp at heq

/-- The calls `Blockchain` makes: it creates at most the service metadata and the
processor. -/
theorem Blockchain_trace (env : Env) (s : St) :
    ∃ t, (Blockchain env s).state.trace = s.trace ++ t ∧
      ∀ e ∈ t, (∃ a, e = Event.constructed Constructor.ServiceMetaData a) ∨
        (∃ a, e = Event.constructed Constructor.NewProcessor a) ∨
        e = Event.failed Constructor.NewProcessor ∨ (∃ m, e = Event.logPanic m) := by
  unfold Blockchain ServiceMetaData
  simp only [bind_apply, getComps_apply]
  cases hb : s.comps.blockchain with
  | some p => exact ⟨[], by simp [Res.state]⟩
  | none =>
    cases hm : s.comps.serviceMetadata <;> cases hn : env.newProcessor <;>
      simp [hm, Res.state]

/-- The two branches of `GrpcPaymentValidationInterceptor`, by the outcome of
`Blockchain`. -/
theorem GrpcPaymentValidationInterceptor_branches (env : Env) (s : St) :
    GrpcPaymentValidationInterceptor env s =
      match Blockchain env s with
      | .panic v s1 => .panic v s1
      | .ok p s1 =>
        if p.enabled = false then
          .ok grpc.StreamServerInterceptor.NoOpInterceptor
            { s1 with trace := s1.trace ++
                [Event.logInfo "Blockchain is disabled: no payment validation"] }
        else
          (EscrowPaymentHandler env >>= fun h1 =>
            FreeCallPaymentHandler env >>= fun h2 =>
              pure (grpc.StreamServerInterceptor.GrpcPaymentValidationInterceptor h1 h2))
            { s1 with trace := s1.trace ++
                [Event.logInfo "Blockchain is enabled: instantiate payment validation interceptor"] } := by
  unfold GrpcPaymentValidationInterceptor
  simp only [bind_apply]
  rcases Blockchain env s with ⟨p, s1⟩ | ⟨v, s1⟩
  · cases hp : p.enabled <;> simp [hp]
  · simp

/-- The interceptor built in the enabled branch is built from the handlers the
receiver holds afterwards. -/
theorem handlers_ret (env : Env) (s : St) (r : grpc.StreamServerInterceptor) (s1 : St)
    (h : (EscrowPaymentHandler env >>= fun h1 =>
            FreeCallPaymentHandler env >>= fun h2 =>
              pure (grpc.StreamServerInterceptor.GrpcPaymentValidationInterceptor h1 h2)) s
          = .ok r s1) :
    ∃ h1 h2, r = grpc.StreamServerInterceptor.GrpcPaymentValidationInterceptor h1 h2 ∧
      s1.comps.escrowPaymentHandler = some h1 ∧ s1.comps.freeCallPaymentHandler = some h2 := by
  simp only [bind_apply] at h
  rcases hE : EscrowPaymentHandler env s with ⟨h1, s2⟩ | ⟨v, s2⟩
  · rw [hE] at h
    dsimp only at h
    rcases hFC : FreeCallPaymentHandler env s2 with ⟨h2, s3⟩ | ⟨v, s3⟩
    · rw [hFC] at h
      simp only [pure_apply, Res.ok.injEq] at h
      obtain ⟨hr, hs⟩ := h
      subst hr hs
      have e1 := EscrowPaymentHandler_ret env s h1 s2 hE
      have e2 := FreeCallPaymentHandler_ret env s2 h2 s3 hFC
      have e3 := (FreeCallPaymentHandler_fp env s2).keep Field.escrowPaymentHandler h1 e1
      rw [hFC] at e3
      exact ⟨h1, h2, rfl, e3, e2⟩
    · rw [hFC] at h
      simp at h
  · rw [hE] at h
    simp at h

/-- C5: `GrpcPaymentValidationInterceptor` returns the no-op interceptor exactly
when `Blockchain().Enabled()` reports false (`blockchainEnabled` is that flag).  In that case it always returns, it
leaves the escrow payment handler, the free-call payment handler and the payment
channel service fields as they were and calls none of their constructors.  When
the flag is true, what it returns is the payment validation interceptor built
from the handlers that `EscrowPaymentHandler` and `FreeCallPaymentHandler`
return, which the receiver holds afterwards. -/
theorem GrpcPaymentValidationInterceptor_noop_iff_disabled (env : Env) (s : St) :
    (∀ e, blockchainEnabled env s.comps = some e ↔
      ∃ p s0, Blockchain env s = .ok p s0 ∧ p.enabled = e) ∧
    (∀ r s1, GrpcPaymentValidationInterceptor env s = .ok r s1 →
      (r = grpc.StreamServerInterceptor.NoOpInterceptor ↔
        blockchainEnabled env s.comps = some false)) ∧
    (blockchainEnabled env s.comps = some false →
      ∃ s1, GrpcPaymentValidationInterceptor env s
          = .ok grpc.StreamServerInterceptor.NoOpInterceptor s1 ∧
        s1.comps.escrowPaymentHandler = s.comps.escrowPaymentHandler ∧
        s1.comps.freeCallPaymentHandler = s.comps.freeCallPaymentHandler ∧
        s1.comps.paymentChannelService = s.comps.paymentChannelService ∧
        ∃ t, s1.trace = s.trace ++ t ∧ ∀ a,
          Event.constructed Constructor.NewPaymentHandler a ∉ t ∧
          Event.constructed Constructor.FreeCallPaymentHandler a ∉ t ∧
          Event.constructed Constructor.NewPaymentChannelService a ∉ t) ∧
    (blockchainEnabled env s.comps = some true →
      ∃ s0, GrpcPaymentValidationInterceptor env s =
        (EscrowPaymentHandler env >>= fun h1 =>
          FreeCallPaymentHandler env >>= fun h2 =>
            pure (grpc.StreamServerInterceptor.GrpcPaymentValidationInterceptor h1 h2)) s0) ∧
    (∀ r s1, GrpcPaymentValidationInterceptor env s = .ok r s1 →
      blockchainEnabled env s.comps = some true →
      ∃ h1 h2, r = grpc.StreamServerInterceptor.GrpcPaymentValidationInterceptor h1 h2 ∧
        s1.comps.escrowPaymentHandler = some h1 ∧
        s1.comps.freeCallPaymentHandler = some h2) := by
  refine ⟨blockchainEnabled_iff env s, ?_⟩
  have hbr := GrpcPaymentValidationInterceptor_branches env s
  have hen := Blockchain_enabled env s
  have hfp := Blockchain_fp env s
  have htr := Blockchain_trace env s
  rcases hB : Blockchain env s with ⟨p, s1⟩ | ⟨v, s1⟩
  · rw [hB] at hbr hen hfp htr
    simp only [Res.state] at hfp htr
    dsimp only at hbr hen
    cases hp : p.enabled with
    | false =>
      rw [hp] at hen
      simp only [hp, if_true] at hbr
      refine ⟨?_, ?_, ?_, ?_⟩
      · intro r s2 h
        rw [hbr] at h
        simp only [Res.ok.injEq] at h
        simp [← h.1, hen]
      · intro _
        refine ⟨_, hbr, ?_, ?_, ?_, ?_⟩
        · exact hfp.same Field.escrowPaymentHandler (by decide)
        · exact hfp.same Field.freeCallPaymentHandler (by decide)
        · exact hfp.same Field.paymentChannelService (by decide)
        · obtain ⟨t, ht, hall⟩ := htr
          refine ⟨t ++ [Event.logInfo "Blockchain is disabled: no payment validation"], ?_, ?_⟩
          · simp [ht]
          · intro a
            refine ⟨?_, ?_, ?_⟩ <;>
              · intro hmem
                simp only [List.mem_append, List.mem_singleton] at hmem
                rcases hmem with hmem | hmem
                · rcases hall _ hmem with ⟨b, hb⟩ | ⟨b, hb⟩ | hb | ⟨m, hb⟩ <;> simp at hb
                · simp at hmem
      · intro h
        rw [hen] at h
        simp at h
      · intro r s2 _ h
        rw [hen] at h
        simp at h
    | true =>
      rw [hp] at hen
      simp only [hp] at hbr
      refine ⟨?_, ?_, ?_, ?_⟩
      · intro r s2 h
        rw [hbr] at h
        obtain ⟨h1, h2, hr, _, _⟩ := handlers_ret env _ r s2 h
        simp [hr, hen]
      · intro h
        rw [hen] at h
        simp at h
      · intro _
        exact ⟨_, hbr⟩
      · intro r s2 h _
        rw [hbr] at h
        exact handlers_ret env _ r s2 h
  · rw [hB] at hbr hen
    dsimp only at hbr hen
    refine ⟨?_, ?_, ?_, ?_⟩
    · intro r s2 h
      rw [hbr] at h
      simp at h
    · intro h
      rw [hen] at h
      simp at h
    · intro h
      rw [hen] at h
      simp at h
    · intro r s2 h
      rw [hbr] at h
      simp at h

/-- C5 on an empty receiver: with the processor disabled the no-op interceptor is
returned and no handler field is set; with the processor enabled the interceptor
returned is built from the two handlers the receiver then holds. -/
theorem GrpcPaymentValidationInterceptor_noop_iff_disabled_witness :
    (∃ s1, GrpcPaymentValidationInterceptor (sampleEnv "" false) emptyState
        = .ok grpc.StreamServerInterceptor.NoOpInterceptor s1 ∧
      s1.comps.escrowPaymentHandler = none ∧
      s1.comps.freeCallPaymentHandler = none ∧
      s1.comps.paymentChannelService = none) ∧
    (∃ h1 h2 s1, GrpcPaymentValidationInterceptor (sampleEnv "" true) emptyState
        = .ok (grpc.StreamServerInterceptor.GrpcPaymentValidationInterceptor h1 h2) s1 ∧
      s1.comps.escrowPaymentHandler = some h1 ∧
      s1.comps.freeCallPaymentHandler = some h2) := by
  constructor
  · obtain ⟨s1, h1, h2, h3, h4, _⟩ :=
      (GrpcPaymentValidationInterceptor_noop_iff_disabled (sampleEnv "" false) emptyState).2.2.1
        rfl
    exact ⟨s1, h1, h2, h3, h4⟩
  · obtain ⟨r, s1, hr⟩ : ∃ r s1,
        GrpcPaymentValidationInterceptor (sampleEnv "" true) emptyState = .ok r s1 :=
      ⟨_, _, rfl⟩
    obtain ⟨h1, h2, hc, e1, e2⟩ :=
      (GrpcPaymentValidationInterceptor_noop_iff_disabled (sampleEnv "" true) emptyState).2.2.2.2
        r s1 hr rfl
    exact ⟨h1, h2, s1, hc ▸ hr, e1, e2⟩

/-! ## The interceptor chain -/

theorem Blockchain_cached (env : Env) (s : St) (p : blockchain.Processor)
    (h : s.comps.blockchain = some p) : Blockchain env s = .ok p s := by
  simp [Blockchain, h]

theorem GrpcInterceptor_cached (env : Env) (s : St) (r : grpc.StreamServerInterceptor)
    (h : s.comps.grpcInterceptor = some r) : GrpcInterceptor env s = .ok r s := by
  simp [GrpcInterceptor, h]

theorem OrganizationMetaData_returns (s : St) :
    ∃ o s1, OrganizationMetaData s = .ok o s1 := by
  unfold OrganizationMetaData
  simp only [bind_apply, getComps_apply]
  cases h : s.comps.organizationMetaData <;> simp

theorem ChannelBroadcast_returns (s : St) :
    ∃ b s1, ChannelBroadcast s = .ok b s1 := by
  unfold ChannelBroadcast
  simp only [bind_apply, getComps_apply]
  cases h : s.comps.configurationBroadcaster <;> simp

/-- A method that does not assign the chain keeps a held processor and chain. -/
theorem holdsProcessor_of_fp {α : Type} {W : List Field} {m : M α} (p : blockchain.Processor)
    (hfp : Fp W m) (hW : Field.grpcInterceptor ∉ W) : Inv (HoldsProcessor p) m := by
  intro s hs
  have h := hfp s
  have h1 : (m s).state.comps.blockchain = some p := h.keep Field.blockchain p hs.1
  have h2 : (m s).state.comps.grpcInterceptor = s.comps.grpcInterceptor :=
    h.same Field.grpcInterceptor hW
  refine ⟨h1, ?_⟩
  rw [h2]
  exact hs.2

/-- A method that does not assign the chain keeps the chain invariant. -/
theorem chain_of_fp {α : Type} {W : List Field} {m : M α}
    (hfp : Fp W m) (hW : Field.grpcInterceptor ∉ W) : Inv ChainMatchesProcessor m := by
  intro s hs r hr
  have h := hfp s
  have h2 : (m s).state.comps.grpcInterceptor = s.comps.grpcInterceptor :=
    h.same Field.grpcInterceptor hW
  rw [h2] at hr
  obtain ⟨p, hp, hc⟩ := hs r hr
  exact ⟨p, h.keep Field.blockchain p hp, hc⟩

/-- With the processor `p` held, the payment validation interceptor is the one
for the flag of `p`. -/
theorem GrpcPaymentValidationInterceptor_holding (env : Env) (p : blockchain.Processor) :
    Tri (HoldsProcessor p) (GrpcPaymentValidationInterceptor env)
      (fun pv => match p.enabled with
        | true => ∃ h1 h2,
            pv = grpc.StreamServerInterceptor.GrpcPaymentValidationInterceptor h1 h2
        | false => pv = grpc.StreamServerInterceptor.NoOpInterceptor) := by
  intro s hs
  have hinv := holdsProcessor_of_fp p (GrpcPaymentValidationInterceptor_fp env) (by decide) s hs
  have hbr := GrpcPaymentValidationInterceptor_branches env s
  rw [Blockchain_cached env s p hs.1] at hbr
  dsimp only at hbr
  rcases hG : GrpcPaymentValidationInterceptor env s with ⟨pv, s1⟩ | ⟨v, s1⟩
  · rw [hG] at hinv hbr
    refine ⟨hinv, ?_⟩
    cases hp : p.enabled with
    | false =>
      simp only [hp, if_true, Res.ok.injEq] at hbr
      exact hbr.1
    | true =>
      simp only [hp] at hbr
      obtain ⟨h1, h2, hr, _, _⟩ := handlers_ret env _ pv s1 hbr.symm
      exact ⟨h1, h2, hr⟩
  · rw [hG] at hinv
    exact hinv

/-- From a triple to a property of the outcome. -/
theorem tri_holds {α : Type} (P : Components → Prop) (φ : α → Prop) (m : M α) (s : St)
    (Q : Res α → Prop) (hs : P s.comps) (hm : Tri P m φ)
    (hQ : ∀ R : Res α,
      (match R with
        | .ok a s1 => P s1.comps ∧ φ a
        | .panic _ s1 => P s1.comps) → Q R) : Q (m s) :=
  hQ (m s) (hm s hs)

/-- The chain `GrpcInterceptor` builds, and the invariant it keeps. -/
theorem GrpcInterceptor_chain (env : Env) (s : St) (hs : ChainMatchesProcessor s.comps) :
    match GrpcInterceptor env s with
    | .ok r s1 => ChainMatchesProcessor s1.comps ∧
        ∃ p, s1.comps.blockchain = some p ∧ ChainFor p.enabled r ∧
          blockchainEnabled env s.comps = some p.enabled
    | .panic _ s1 => ChainMatchesProcessor s1.comps := by
  cases hF : s.comps.grpcInterceptor with
  | some r =>
    rw [GrpcInterceptor_cached env s r hF]
    obtain ⟨p, hp, hc⟩ := hs r hF
    exact ⟨hs, p, hp, hc, by simp [blockchainEnabled, hp]⟩
  | none =>
    have hnone : ∀ c : Components, c.grpcInterceptor = none → ChainMatchesProcessor c := by
      intro c hc r hr
      rw [hc] at hr
      simp at hr
    have hOfp := OrganizationMetaData_fp s
    unfold GrpcInterceptor
    rw [getComps_bind_apply]
    simp only [hF]
    rw [bind_apply]
    obtain ⟨o, s1, hO⟩ := OrganizationMetaData_returns s
    rw [hO] at hOfp ⊢
    simp only [Res.state] at hOfp
    dsimp only
    rw [bind_apply, emit_apply]
    dsimp only
    rw [bind_apply]
    have hb1 : s1.comps.blockchain = s.comps.blockchain :=
      hOfp.same Field.blockchain (by decide)
    have hg1 : s1.comps.grpcInterceptor = none :=
      (hOfp.same Field.grpcInterceptor (by decide)).trans hF
    have hen := Blockchain_enabled env
      { s1 with trace := s1.trace ++ [Event.setDaemonGrpId o] }
    have hBfp := Blockchain_fp env { s1 with trace := s1.trace ++ [Event.setDaemonGrpId o] }
    have hen0 : blockchainEnabled env s.comps = blockchainEnabled env s1.comps := by
      simp [blockchainEnabled, hb1]
    rcases hB : Blockchain env { s1 with trace := s1.trace ++ [Event.setDaemonGrpId o] }
      with ⟨p, s2⟩ | ⟨v, s2⟩
    · rw [hB] at hen hBfp
      have hp2 := Blockchain_ret env _ p s2 hB
      simp only [Res.state] at hBfp
      dsimp only at hen ⊢
      have hg2 : s2.comps.grpcInterceptor = none :=
        (hBfp.same Field.grpcInterceptor (by decide)).trans hg1
      have hH : HoldsProcessor p s2.comps := by
        refine ⟨hp2, ?_⟩
        intro r hr
        rw [hg2] at hr
        simp at hr
      have hCB : Inv (HoldsProcessor p) ChannelBroadcast :=
        holdsProcessor_of_fp p ChannelBroadcast_fp (by decide)
      have hchain : ∀ c : Components, HoldsProcessor p c → ChainMatchesProcessor c :=
        fun c hc r hr => ⟨p, hc.1, hc.2 r hr⟩
      refine tri_holds (HoldsProcessor p) (fun r => ChainFor p.enabled r) _ s2
        (fun R => match R with
          | .ok r s1 => ChainMatchesProcessor s1.comps ∧
              ∃ p, s1.comps.blockchain = some p ∧ ChainFor p.enabled r ∧
                blockchainEnabled env s.comps = some p.enabled
          | .panic _ s1 => ChainMatchesProcessor s1.comps) hH ?_ ?_
      · split
        · rename_i hp
          refine tri_bind (tri_of_inv hCB) (fun b _ => ?_)
          refine tri_bind (GrpcPaymentValidationInterceptor_holding env p) (fun pv hpv => ?_)
          rw [hp] at hpv
          obtain ⟨h1, h2, hpv⟩ := hpv
          subst hpv
          refine tri_bind (tri_of_inv (inv_setComps ?_)) (fun _ _ => tri_pure _ ?_)
          · intro c hc
            refine ⟨hc.1, ?_⟩
            intro r hr
            simp only [Option.some.injEq] at hr
            rw [hp, ← hr]
            exact ⟨b, h1, h2, rfl⟩
          · rw [hp]
            exact ⟨b, h1, h2, rfl⟩
        · rename_i hp
          have hp : p.enabled = false := by simpa using hp
          refine tri_bind (tri_of_inv hCB) (fun b _ => ?_)
          refine tri_bind (GrpcPaymentValidationInterceptor_holding env p) (fun pv hpv => ?_)
          rw [hp] at hpv
          dsimp only at hpv
          subst hpv
          refine tri_bind (tri_of_inv (inv_setComps ?_)) (fun _ _ => tri_pure _ ?_)
          · intro c hc
            refine ⟨hc.1, ?_⟩
            intro r hr
            simp only [Option.some.injEq] at hr
            rw [hp, ← hr]
            exact ⟨b, rfl⟩
          · rw [hp]
            exact ⟨b, rfl⟩
      · intro R hR
        cases R with
        | ok r s3 => exact ⟨hchain _ hR.1, p, hR.1.1, hR.2, by rw [hen0]; exact hen⟩
        | panic v s3 => exact hchain _ hR
    · rw [hB] at hBfp
      simp only [Res.state] at hBfp
      exact hnone _ ((hBfp.same Field.grpcInterceptor (by decide)).trans hg1)

theorem GrpcInterceptor_shape (env : Env) : Inv ChainMatchesProcessor (GrpcInterceptor env) := by
  intro s hs
  have h := GrpcInterceptor_chain env s hs
  rcases hG : GrpcInterceptor env s with ⟨r, s1⟩ | ⟨v, s1⟩
  · rw [hG] at h
    exact h.1
  · rw [hG] at h
    exact h

/-- Every method keeps the chain invariant. -/
theorem runMethod_chain (env : Env) (m : Method) (s : St) (hs : ChainMatchesProcessor s.comps) :
    ChainMatchesProcessor (runMethod env m s).comps := by
  cases m
  · exact chain_of_fp (Close_fp) (by decide) s hs
  · exact chain_of_fp (Blockchain_fp env) (by decide) s hs
  · exact chain_of_fp (ServiceMetaData_fp) (by decide) s hs
  · exact chain_of_fp (OrganizationMetaData_fp) (by decide) s hs
  · exact chain_of_fp (EtcdServer_fp env) (by decide) s hs
  · exact chain_of_fp (EtcdClient_fp env) (by decide) s hs
  · exact chain_of_fp (LockerStorage_fp env) (by decide) s hs
  · exact chain_of_fp (AtomicStorage_fp env) (by decide) s hs
  · exact chain_of_fp (PaymentStorage_fp env) (by decide) s hs
  · exact chain_of_fp (PaymentChannelService_fp env) (by decide) s hs
  · exact chain_of_fp (EscrowPaymentHandler_fp env) (by decide) s hs
  · exact chain_of_fp (FreeCallPaymentHandler_fp env) (by decide) s hs
  · exact GrpcInterceptor_shape env s hs
  · exact chain_of_fp (GrpcPaymentValidationInterceptor_fp env) (by decide) s hs
  · exact chain_of_fp (PaymentChannelStateService_fp env) (by decide) s hs
  · exact chain_of_fp (ProviderControlService_fp env) (by decide) s hs
  · exact chain_of_fp (DaemonHeartBeat_fp env) (by decide) s hs
  · exact chain_of_fp (PricingStrategy_fp env) (by decide) s hs
  · exact chain_of_fp (ChannelBroadcast_fp) (by decide) s hs
  · exact chain_of_fp (ConfigurationService_fp) (by decide) s hs

/-- The chain invariant holds in every reachable state. -/
theorem reachable_chain (s : St) (h : Reachable s) : ChainMatchesProcessor s.comps := by
  induction h with
  | init next trace closeCalls =>
    intro r hr
    simp at hr
  | call env m s _ ih => exact runMethod_chain env m s ih

/-- With the blockchain processor disabled, `GrpcInterceptor` returns. -/
theorem GrpcInterceptor_disabled_returns (env : Env) (s : St)
    (hd : blockchainEnabled env s.comps = some false) :
    ∃ r s1, GrpcInterceptor env s = .ok r s1 := by
  cases hF : s.comps.grpcInterceptor with
  | some r => exact ⟨r, s, GrpcInterceptor_cached env s r hF⟩
  | none =>
    have hOfp := OrganizationMetaData_fp s
    obtain ⟨o, s1, hO⟩ := OrganizationMetaData_returns s
    rw [hO] at hOfp
    simp only [Res.state] at hOfp
    have hb1 : s1.comps.blockchain = s.comps.blockchain :=
      hOfp.same Field.blockchain (by decide)
    have hen := Blockchain_enabled env
      { s1 with trace := s1.trace ++ [Event.setDaemonGrpId o] }
    have hen0 : blockchainEnabled env s1.comps = some false := by
      rw [← hd]
      simp [blockchainEnabled, hb1]
    rcases hB : Blockchain env { s1 with trace := s1.trace ++ [Event.setDaemonGrpId o] }
      with ⟨p, s2⟩ | ⟨v, s2⟩
    · rw [hB] at hen
      dsimp only at hen
      have hp : p.enabled = false := by
        have : some p.enabled = some false := hen.symm.trans hen0
        simpa using this
      have hp2 := Blockchain_ret env _ p s2 hB
      obtain ⟨b, s3, hC⟩ := ChannelBroadcast_returns s2
      have hCfp := ChannelBroadcast_fp s2
      rw [hC] at hCfp
      simp only [Res.state] at hCfp
      have hp3 : s3.comps.blockchain = some p := hCfp.keep Field.blockchain p hp2
      have hbr := GrpcPaymentValidationInterceptor_branches env s3
      rw [Blockchain_cached env s3 p hp3] at hbr
      simp only [hp, if_true] at hbr
      unfold GrpcInterceptor
      simp only [bind_apply, getComps_apply, hF, hO, emit_apply, hB, hp, Bool.false_eq_true,
        if_false, hC, hbr, setComps_apply, pure_apply]
      exact ⟨_, _, rfl⟩
    · rw [hB] at hen
      dsimp only at hen
      rw [hen0] at hen
      simp at hen

/-- The two chains of `GrpcInterceptor`, in every state reached from
`InitComponents`: monitoring, rate limit, payment validation when
`Blockchain().Enabled()` reports true; rate limit followed by the no-op
interceptor when it reports false, in which case the call always returns.  The
flag is `blockchainEnabled`, that of the processor `Blockchain` returns. -/
theorem GrpcInterceptor_chain_by_enabled_flag (env : Env) (s : St) (hs : Reachable s) :
    (∀ r s1, GrpcInterceptor env s = .ok r s1 →
      (blockchainEnabled env s.comps = some true ∧
        ∃ b h1 h2, r = grpc.StreamServerInterceptor.ChainStreamServer
          [grpc.StreamServerInterceptor.GrpcMonitoringInterceptor,
           grpc.StreamServerInterceptor.GrpcRateLimitInterceptor b,
           grpc.StreamServerInterceptor.GrpcPaymentValidationInterceptor h1 h2]) ∨
      (blockchainEnabled env s.comps = some false ∧
        ∃ b, r = grpc.StreamServerInterceptor.ChainStreamServer
          [grpc.StreamServerInterceptor.GrpcRateLimitInterceptor b,
           grpc.StreamServerInterceptor.NoOpInterceptor])) ∧
    (blockchainEnabled env s.comps = some false →
      ∃ b s1, GrpcInterceptor env s = .ok
        (grpc.StreamServerInterceptor.ChainStreamServer
          [grpc.StreamServerInterceptor.GrpcRateLimitInterceptor b,
           grpc.StreamServerInterceptor.NoOpInterceptor]) s1) ∧
    (∀ e, blockchainEnabled env s.comps = some e ↔
      ∃ p s0, Blockchain env s = .ok p s0 ∧ p.enabled = e) := by
  have key : ∀ r s1, GrpcInterceptor env s = .ok r s1 →
      (blockchainEnabled env s.comps = some true ∧
        ∃ b h1 h2, r = grpc.StreamServerInterceptor.ChainStreamServer
          [grpc.StreamServerInterceptor.GrpcMonitoringInterceptor,
           grpc.StreamServerInterceptor.GrpcRateLimitInterceptor b,
           grpc.StreamServerInterceptor.GrpcPaymentValidationInterceptor h1 h2]) ∨
      (blockchainEnabled env s.comps = some false ∧
        ∃ b, r = grpc.StreamServerInterceptor.ChainStreamServer
          [grpc.StreamServerInterceptor.GrpcRateLimitInterceptor b,
           grpc.StreamServerInterceptor.NoOpInterceptor]) := by
    intro r s1 h
    have hc := GrpcInterceptor_chain env s (reachable_chain s hs)
    rw [h] at hc
    obtain ⟨_, p, _, hcf, hen⟩ := hc
    cases hp : p.enabled with
    | true =>
      rw [hp] at hcf hen
      exact Or.inl ⟨hen, hcf⟩
    | false =>
      rw [hp] at hcf hen
      exact Or.inr ⟨hen, hcf⟩
  refine ⟨key, ?_, blockchainEnabled_iff env s⟩
  intro hd
  obtain ⟨r, s1, h⟩ := GrpcInterceptor_disabled_returns env s hd
  rcases key r s1 h with ⟨hen, _⟩ | ⟨_, b, hr⟩
  · rw [hd] at hen
    simp at hen
  · exact ⟨b, s1, hr ▸ h⟩

/-- The two chains on an empty receiver: with the processor enabled the chain
starts with the monitoring interceptor, with the processor disabled the call
returns the chain of rate limit and no-op. -/
theorem GrpcInterceptor_chain_by_enabled_flag_sample :
    Reachable emptyState ∧
    (∃ b h1 h2 s1, GrpcInterceptor (sampleEnv "" true) emptyState = .ok
      (grpc.StreamServerInterceptor.ChainStreamServer
        [grpc.StreamServerInterceptor.GrpcMonitoringInterceptor,
         grpc.StreamServerInterceptor.GrpcRateLimitInterceptor b,
         grpc.StreamServerInterceptor.GrpcPaymentValidationInterceptor h1 h2]) s1) ∧
    (∃ b s1, GrpcInterceptor (sampleEnv "" false) emptyState = .ok
      (grpc.StreamServerInterceptor.ChainStreamServer
        [grpc.StreamServerInterceptor.GrpcRateLimitInterceptor b,
         grpc.StreamServerInterceptor.NoOpInterceptor]) s1) := by
  refine ⟨Reachable.init 0 [] 0, ?_, ?_⟩
  · have h := (GrpcInterceptor_chain_by_enabled_flag (sampleEnv "" true) emptyState
      (Reachable.init 0 [] 0)).1
    obtain ⟨r, s1, hr⟩ : ∃ r s1, GrpcInterceptor (sampleEnv "" true) emptyState = .ok r s1 :=
      ⟨_, _, rfl⟩
    rcases h r s1 hr with ⟨_, b, h1, h2, hc⟩ | ⟨hen, _⟩
    · exact ⟨b, h1, h2, s1, hc ▸ hr⟩
    · simp [blockchainEnabled, sampleEnv, emptyState] at hen
  · exact (GrpcInterceptor_chain_by_enabled_flag (sampleEnv "" false) emptyState
      (Reachable.init 0 [] 0)).2.1 rfl

/-- C7: metering is documented as mandatory ("Metering is now mandatory in
Daemon"), yet on an empty receiver whose blockchain processor reports
`Enabled() == false` the chain `GrpcInterceptor` returns is the rate limit
interceptor followed by the no-op interceptor: the monitoring interceptor that
the enabled branch installs is not in it. -/
theorem GrpcInterceptor_disabled_chain_lacks_monitoring :
    GrpcInterceptor (sampleEnv "" false) emptyState = .ok
      (grpc.StreamServerInterceptor.ChainStreamServer
        [grpc.StreamServerInterceptor.GrpcRateLimitInterceptor { addr := 3 },
         grpc.StreamServerInterceptor.NoOpInterceptor])
      (GrpcInterceptor (sampleEnv "" false) emptyState).state ∧
    grpc.StreamServerInterceptor.GrpcMonitoringInterceptor ∉
      [grpc.StreamServerInterceptor.GrpcRateLimitInterceptor { addr := 3 },
       grpc.StreamServerInterceptor.NoOpInterceptor] :=
  ⟨rfl, by simp⟩

end cmd

end snet
